import Mathlib

/-!
Verification of the stats-goblin analytics ingestion pipeline.

The definitions below are a shallow embedding of the TypeScript source:

* client-identifier validation (`src/common/validators/client-id.validator.ts`
  and the `CLIENT_ID_REGEX` used in `src/analytics/analytics.service.ts`),
* session-id extraction and batch preflight
  (`AnalyticsService.extractSessionId`, `validateSessionsInBatch`),
* per-record validation and wallet enrichment
  (`validateAndTransformQuery`, `validateAndTransformEvent`),
* the fire-and-forget batch submission (`submitBatch`),
* the chunked bulk writers (`OpenSearchService.bulkIndexQueries`,
  `bulkIndexEvents`, `indexQuery`),
* session initialization (`SessionService.initializeSession`), and
* the configuration defaults (`src/config/app.config.ts`) together with the
  transport-level batch size bound (`SubmitAnalyticsBatchDto`).

Strings are modelled as Lean `String`s and JavaScript `split` on a single
character as `List.splitOn` over `String.data`; Redis calls that may reject
are modelled in the `Except Unit` monad.
-/

deriving instance DecidableEq for Except

namespace StatsGoblin

/-! ## Character classes of the client-id regular expressions -/

/-- The class `[a-zA-Z0-9-]` (client name segment). -/
def isNameChar (c : Char) : Bool := c.isAlphanum || c = '-'

/-- The class `[a-f0-9]` (canonical lowercase UUID hex digit). -/
def isHexLower (c : Char) : Bool := c.isDigit || ('a' ≤ c && c ≤ 'f')

/-- The class `[a-zA-Z0-9_-]` (base64url, wallet tag in the DTO validator). -/
def isB64UrlChar (c : Char) : Bool := c.isAlphanum || c = '_' || c = '-'

/-- The class `[a-zA-Z0-9.-]` (semver pre-release suffix). -/
def isPreChar (c : Char) : Bool := c.isAlphanum || c = '.' || c = '-'

/-- The class `[0-9a-f-]` (lax session segment of the in-service regex). -/
def isSessLaxChar (c : Char) : Bool := c.isDigit || ('a' ≤ c && c ≤ 'f') || c = '-'

/-! ## Segment validators

Each mirrors one anchored regular expression from the source.  A regex whose
separator character occurs in no character class is decided by splitting on
that separator and checking each part, which is what the matchers below do. -/

/-- `^[a-zA-Z0-9-]{2,50}$` — the client-name segment of the DTO validator. -/
def nameOk (cs : List Char) : Bool :=
  2 ≤ cs.length && cs.length ≤ 50 && cs.all isNameChar

/-- The optional pre-release suffix `[a-zA-Z0-9.-]+` (bounded to
`{1,20}` in the DTO validator, unbounded in the in-service regex). -/
def semverSuffixOk (maxLen : Option Nat) (suf : List Char) : Bool :=
  !suf.isEmpty && suf.all isPreChar &&
    (match maxLen with | none => true | some m => suf.length ≤ m)

/-- `^\d+\.\d+\.\d+(-suffix)?$`.  Since digits and dots are never a hyphen,
the match is equivalent to: everything before the first hyphen splits on
dots into exactly three nonempty digit runs, and what follows is absent or
a hyphen followed by a valid suffix. -/
def semverOk (maxLen : Option Nat) (cs : List Char) : Bool :=
  (match (cs.takeWhile (fun c => c ≠ '-')).splitOn '.' with
   | [a, b, c] =>
     !a.isEmpty && !b.isEmpty && !c.isEmpty &&
       a.all Char.isDigit && b.all Char.isDigit && c.all Char.isDigit
   | _ => false) &&
  (match cs.dropWhile (fun c => c ≠ '-') with
   | [] => true
   | c :: suf => c = '-' && semverSuffixOk maxLen suf)

/-- `^[a-f0-9]{8}-[a-f0-9]{4}-[a-f0-9]{4}-[a-f0-9]{4}-[a-f0-9]{12}$`:
five lowercase-hex groups of lengths 8-4-4-4-12 joined by hyphens. -/
def uuidOk (cs : List Char) : Bool :=
  match cs.splitOn '-' with
  | [a, b, c, d, e] =>
    a.length = 8 && b.length = 4 && c.length = 4 && d.length = 4 &&
      e.length = 12 && (a ++ b ++ c ++ d ++ e).all isHexLower
  | _ => false

/-- `^[a-zA-Z0-9_-]{43}$` — the wallet segment of the DTO validator. -/
def walletOk43 (cs : List Char) : Bool :=
  cs.length = 43 && cs.all isB64UrlChar

/-! ## The two client-id checks of the source -/

/-- `IsValidClientId.validate` (client-id.validator.ts): split on `@`,
require 3 or 4 parts, and check each part against its segment pattern;
the wallet part, when present, must be exactly 43 base64url characters. -/
def isValidClientIdL (cs : List Char) : Bool :=
  match cs.splitOn '@' with
  | [n, v, u] => nameOk n && semverOk (some 20) v && uuidOk u
  | [n, v, u, w] =>
    nameOk n && semverOk (some 20) v && uuidOk u && walletOk43 w
  | _ => false

/-- String-level wrapper for `IsValidClientId.validate`. -/
def isValidClientId (s : String) : Bool := isValidClientIdL s.data

/-- The in-service regex of `validateAndTransformQuery` and
`validateAndTransformEvent`:
`^[a-zA-Z0-9-]+@\d+\.\d+\.\d+(-[a-zA-Z0-9.-]+)?@[0-9a-f-]{36}(@[a-zA-Z0-9]+)?$`.
No character class contains `@`, so the match is equivalent to splitting
on `@` and checking each part. -/
def clientIdRegexL (cs : List Char) : Bool :=
  match cs.splitOn '@' with
  | [n, v, u] =>
    !n.isEmpty && n.all isNameChar && semverOk none v &&
      u.length = 36 && u.all isSessLaxChar
  | [n, v, u, t] =>
    !n.isEmpty && n.all isNameChar && semverOk none v &&
      u.length = 36 && u.all isSessLaxChar && !t.isEmpty && t.all Char.isAlphanum
  | _ => false

/-- String-level wrapper for the in-service `CLIENT_ID_REGEX` test. -/
def clientIdRegexTest (s : String) : Bool := clientIdRegexL s.data

/-- `AnalyticsService.extractSessionId`: the third `@`-separated part when at
least three parts exist, `null` otherwise. -/
def extractSessionId (clientId : String) : Option String :=
  let parts := clientId.data.splitOn '@'
  if 3 ≤ parts.length then (parts.get? 2).map (fun l => ⟨l⟩) else none

/-! ## Attribute maps

The `query_attributes` / `event_attributes` maps are open-ended JSON
objects; the pipeline only ever inserts a string (`wallet_address`) and a
boolean (`wallet_opted_in`), so a small tagged value type suffices.
JavaScript object-key assignment overwrites an existing key in place and
otherwise appends. -/

inductive AttrVal where
  | str (s : String)
  | boolv (b : Bool)
  | num (n : Int)
  deriving DecidableEq

/-- An attributes object: ordered association list of string keys. -/
abbrev Attrs := List (String × AttrVal)

/-- JavaScript `obj[k] = v`: overwrite in place, else append. -/
def setKey : Attrs → String → AttrVal → Attrs
  | [], k, v => [(k, v)]
  | (k', v') :: rest, k, v =>
    if k' = k then (k, v) :: rest else (k', v') :: setKey rest k v

/-- JavaScript property read `obj[k]`. -/
def lookupKey : Attrs → String → Option AttrVal
  | [], _ => none
  | (k', v') :: rest, k => if k' = k then some v' else lookupKey rest k

/-! ## Submitted records and stored documents -/

/-- `SubmitQueryDto`: every field optional at the transport layer;
required-field checks happen in the service. -/
structure SubmitQueryDto where
  application : Option String
  query_id : Option String
  client_id : Option String
  user_query : Option String
  query_attributes : Option Attrs
  object_id_field : Option String
  timestamp : Option String
  query_response_id : Option String
  query_response_hit_ids : Option (List String)
  deriving DecidableEq

/-- `SubmitEventDto`. -/
structure SubmitEventDto where
  query_id : Option String
  action_name : Option String
  client_id : Option String
  timestamp : Option String
  event_attributes : Option Attrs
  deriving DecidableEq

/-- `UbiQuery` (analytics.interface.ts): the stored query document. -/
structure UbiQuery where
  application : String
  query_id : String
  client_id : String
  user_query : String
  timestamp : String
  query_attributes : Option Attrs
  object_id_field : Option String
  query_response_id : Option String
  query_response_hit_ids : Option (List String)
  deriving DecidableEq

/-- `UbiEvent`: the stored event document. -/
structure UbiEvent where
  query_id : String
  action_name : String
  client_id : String
  timestamp : String
  event_attributes : Option Attrs
  deriving DecidableEq

/-- JavaScript truthiness of an optional string field: present and
nonempty. -/
def present (s : Option String) : Bool :=
  match s with
  | some t => !(t = "")
  | none => false

/-- JavaScript `s || dflt` for an optional string. -/
def orElseStr (s : Option String) (dflt : String) : String :=
  match s with
  | some t => if t = "" then dflt else t
  | none => dflt

/-- Spread guard `...(field && \x7b field \x7d)`: the field is kept only
when truthy. -/
def keepIfTruthy (s : Option String) : Option String :=
  match s with
  | some t => if t = "" then none else some t
  | none => none

/-! ## The session registry (Redis) client

`RedisService.isValidSession` and `getWalletForSession` issue network
calls that may reject; neither catches errors, so a failure propagates to
the caller as an exception.  A registry is modelled by its answers plus,
per session id, whether each call rejects. -/

structure Registry where
  sessionLive : String → Bool
  existsFails : String → Bool
  wallet : String → Option String
  walletFails : String → Bool

/-- `RedisService.isValidSession sid` — `EXISTS session:<sid>`. -/
def isValidSession (reg : Registry) (sid : String) : Except Unit Bool :=
  if reg.existsFails sid then .error () else .ok (reg.sessionLive sid)

/-- `RedisService.getWalletForSession sid` — `GET session:wallet:<sid>`. -/
def getWalletForSession (reg : Registry) (sid : String) :
    Except Unit (Option String) :=
  if reg.walletFails sid then .error () else .ok (reg.wallet sid)

/-! ## Per-record validation and enrichment -/

/-- The wallet-enrichment merge shared verbatim by both validators: when a
truthy wallet address was looked up, assign `wallet_address` and
`wallet_opted_in: true` into a copy of the submitted attributes. -/
def enrichAttrs (walletAddress : Option String) (attrs0 : Attrs) : Attrs :=
  match walletAddress with
  | some w =>
    if w = "" then attrs0
    else setKey (setKey attrs0 "wallet_address" (.str w))
      "wallet_opted_in" (.boolv true)
  | none => attrs0

/-- Spread guard for the attributes map: included only when it has at
least one key. -/
def attrsField (a : Attrs) : Option Attrs :=
  if a.isEmpty then none else some a

/-- The required-field check of `validateAndTransformQuery`:
`!dto.user_query || !dto.query_id || !dto.client_id || !dto.application`,
negated. -/
def queryFieldsPresent (dto : SubmitQueryDto) : Bool :=
  present dto.user_query && present dto.query_id &&
    present dto.client_id && present dto.application

/-- The required-field check of `validateAndTransformEvent`. -/
def eventFieldsPresent (dto : SubmitEventDto) : Bool :=
  present dto.action_name && present dto.query_id && present dto.client_id

/-- `AnalyticsService.validateAndTransformQuery`.  `Except.error` is a
thrown (uncaught) exception from a registry call; `.ok none` is the
"validation failed, drop the record" result; `.ok (some q)` is the
validated, enriched, immutable document. -/
def validateAndTransformQuery (allowedApplications : List String)
    (reg : Registry) (now : String) (dto : SubmitQueryDto) :
    Except Unit (Option UbiQuery) := do
  if !(queryFieldsPresent dto) then
    return none
  if !(allowedApplications.contains (dto.application.getD "")) then
    return none
  if !(clientIdRegexTest (dto.client_id.getD "")) then
    return none
  match extractSessionId (dto.client_id.getD "") with
  | none => return none
  | some sessionId => do
    let isValid ← isValidSession reg sessionId
    if !isValid then
      return none
    let walletAddress ← getWalletForSession reg sessionId
    let timestamp := orElseStr dto.timestamp now
    let queryAttributes := enrichAttrs walletAddress (dto.query_attributes.getD [])
    return some {
      application := dto.application.getD ""
      query_id := dto.query_id.getD ""
      client_id := dto.client_id.getD ""
      user_query := dto.user_query.getD ""
      timestamp := timestamp
      query_attributes := attrsField queryAttributes
      object_id_field := keepIfTruthy dto.object_id_field
      query_response_id := keepIfTruthy dto.query_response_id
      query_response_hit_ids := dto.query_response_hit_ids }

/-- `AnalyticsService.validateAndTransformEvent`: same shape, without the
application allow-list check. -/
def validateAndTransformEvent (reg : Registry) (now : String)
    (dto : SubmitEventDto) : Except Unit (Option UbiEvent) := do
  if !(eventFieldsPresent dto) then
    return none
  if !(clientIdRegexTest (dto.client_id.getD "")) then
    return none
  match extractSessionId (dto.client_id.getD "") with
  | none => return none
  | some sessionId => do
    let isValid ← isValidSession reg sessionId
    if !isValid then
      return none
    let walletAddress ← getWalletForSession reg sessionId
    let timestamp := orElseStr dto.timestamp now
    let eventAttributes := enrichAttrs walletAddress (dto.event_attributes.getD [])
    return some {
      query_id := dto.query_id.getD ""
      action_name := dto.action_name.getD ""
      client_id := dto.client_id.getD ""
      timestamp := timestamp
      event_attributes := attrsField eventAttributes }

/-! ## The chunked bulk writer (OpenSearchService)

The loop `for (let i = 0; i < documents.length; i += chunkSize)` with
`documents.slice(i, i + chunkSize)` is modelled for `chunkSize ≥ 1` by
`chunksOf`; each iteration issues one bulk call and, on either a thrown
call or per-item errors, logs and continues with the next chunk. -/

/-- Fuelled worker for `chunksOf`: each loop iteration consumes at least
one document, so a fuel of `l.length` always suffices; the fuel only makes
the recursion structural. -/
def chunksOfGo (c : Nat) : Nat → List α → List (List α)
  | _, [] => []
  | 0, _ :: _ => []
  | fuel + 1, x :: xs =>
    (x :: xs.take (c - 1)) :: chunksOfGo c fuel (xs.drop (c - 1))

/-- The successive slices `documents.slice(i, i + c)` for `i = 0, c, 2c, …`,
for a chunk size `c ≥ 1`. -/
def chunksOf (c : Nat) (l : List α) : List (List α) :=
  chunksOfGo c l.length l

lemma chunksOfGo_fuel (c : Nat) :
    ∀ (fuel₁ fuel₂ : Nat) (l : List α), l.length ≤ fuel₁ →
      l.length ≤ fuel₂ → chunksOfGo c fuel₁ l = chunksOfGo c fuel₂ l := by
  intro fuel₁
  induction fuel₁ with
  | zero =>
    intro fuel₂ l h₁ _
    cases l with
    | nil => cases fuel₂ <;> rfl
    | cons x xs => simp at h₁
  | succ f ih =>
    intro fuel₂ l h₁ h₂
    cases l with
    | nil => cases fuel₂ <;> rfl
    | cons x xs =>
      cases fuel₂ with
      | zero => simp at h₂
      | succ f₂ =>
        simp only [chunksOfGo]
        congr 1
        apply ih
        · calc (xs.drop (c - 1)).length ≤ xs.length := by
                rw [List.length_drop]; omega
            _ ≤ f := by simpa using h₁
        · calc (xs.drop (c - 1)).length ≤ xs.length := by
                rw [List.length_drop]; omega
            _ ≤ f₂ := by simpa using h₂

@[simp] lemma chunksOf_nil (c : Nat) : chunksOf c ([] : List α) = [] := rfl

lemma chunksOf_cons (c : Nat) (x : α) (xs : List α) :
    chunksOf c (x :: xs) =
      (x :: xs.take (c - 1)) :: chunksOf c (xs.drop (c - 1)) := by
  unfold chunksOf
  simp only [List.length_cons, chunksOfGo]
  congr 1
  apply chunksOfGo_fuel
  · rw [List.length_drop]; omega
  · exact le_rfl

/-- One per-item entry of a bulk response (`item.create` / `item.index`). -/
structure BulkItem where
  id : String
  status : Nat
  errorReason : Option String
  deriving DecidableEq

/-- The body of a bulk response: the top-level `errors` flag and the
per-item results. -/
structure BulkResponse where
  errors : Bool
  items : List BulkItem
  deriving DecidableEq

/-- The diagnostic list a chunk of `bulkIndexQueries` builds from a bulk
response: `items.filter(item => item.create?.error)` mapped to
`(id, reason or Unknown error)` — no status is inspected. -/
def erroredDocsOfItems (items : List BulkItem) : List (String × String) :=
  (items.filter (fun it => it.errorReason.isSome)).map
    (fun it => (it.id, it.errorReason.getD "Unknown error"))

/-- The per-item error entries `bulkIndexQueries` logs (via
`logger.error`) for one chunk: none when the call itself threw (the catch
logs a chunk-level message instead), otherwise the errored items whenever
the response's `errors` flag is set. -/
def chunkLoggedErrors : Except String BulkResponse → List (String × String)
  | .error _ => []
  | .ok resp => if resp.errors then erroredDocsOfItems resp.items else []

/-- The sequential bulk loop: one store call per chunk, in order; a thrown
call is caught and logged, and the loop continues with the next chunk.
The returned trace pairs each dispatched chunk with its outcome (the fuel
only makes the recursion structural; each iteration consumes at least one
document). -/
def bulkIndexGo (store : List α → Except String BulkResponse) (c : Nat) :
    Nat → List α → List (List α × Except String BulkResponse)
  | _, [] => []
  | 0, _ :: _ => []
  | fuel + 1, x :: xs =>
    (x :: xs.take (c - 1), store (x :: xs.take (c - 1))) ::
      bulkIndexGo store c fuel (xs.drop (c - 1))

/-- The chunk/outcome trace of one `bulkIndexQueries` /
`bulkIndexEvents` run. -/
def bulkIndexTrace (store : List α → Except String BulkResponse) (c : Nat)
    (docs : List α) : List (List α × Except String BulkResponse) :=
  bulkIndexGo store c docs.length docs

lemma bulkIndexGo_fuel (store : List α → Except String BulkResponse)
    (c : Nat) :
    ∀ (fuel₁ fuel₂ : Nat) (l : List α), l.length ≤ fuel₁ →
      l.length ≤ fuel₂ →
      bulkIndexGo store c fuel₁ l = bulkIndexGo store c fuel₂ l := by
  intro fuel₁
  induction fuel₁ with
  | zero =>
    intro fuel₂ l h₁ _
    cases l with
    | nil => cases fuel₂ <;> rfl
    | cons x xs => simp at h₁
  | succ f ih =>
    intro fuel₂ l h₁ h₂
    cases l with
    | nil => cases fuel₂ <;> rfl
    | cons x xs =>
      cases fuel₂ with
      | zero => simp at h₂
      | succ f₂ =>
        simp only [bulkIndexGo]
        congr 1
        apply ih
        · calc (xs.drop (c - 1)).length ≤ xs.length := by
                rw [List.length_drop]; omega
            _ ≤ f := by simpa using h₁
        · calc (xs.drop (c - 1)).length ≤ xs.length := by
                rw [List.length_drop]; omega
            _ ≤ f₂ := by simpa using h₂

@[simp] lemma bulkIndexTrace_nil (store : List α → Except String BulkResponse)
    (c : Nat) : bulkIndexTrace store c [] = [] := rfl

lemma bulkIndexTrace_cons (store : List α → Except String BulkResponse)
    (c : Nat) (x : α) (xs : List α) :
    bulkIndexTrace store c (x :: xs) =
      (x :: xs.take (c - 1), store (x :: xs.take (c - 1))) ::
        bulkIndexTrace store c (xs.drop (c - 1)) := by
  unfold bulkIndexTrace
  simp only [List.length_cons, bulkIndexGo]
  congr 1
  apply bulkIndexGo_fuel
  · rw [List.length_drop]; omega
  · exact le_rfl

/-- All per-item error entries logged across a `bulkIndexQueries` run. -/
def bulkQueriesLoggedErrors (store : List UbiQuery → Except String BulkResponse)
    (c : Nat) (docs : List UbiQuery) : List (String × String) :=
  ((bulkIndexTrace store c docs).map (fun e => chunkLoggedErrors e.2)).flatten

/-- Outcome of the single-document `client.index` call in `indexQuery`. -/
inductive IndexOutcome where
  | ok
  | failed (statusCode : Option Nat) (msg : String)
  deriving DecidableEq

/-- Severity of a log line. -/
inductive LogLevel where
  | silent
  | debug
  | error
  deriving DecidableEq

/-- `OpenSearchService.indexQuery` error handling: a 409 conflict
(duplicate `query_id`) is swallowed with a debug line; any other failure
is logged at error level; nothing is rethrown. -/
def indexQueryLog : IndexOutcome → LogLevel
  | .ok => .silent
  | .failed sc _ => if sc = some 409 then .debug else .error

/-! ## Batch processor (`AnalyticsService`) -/

/-- A mixed analytics batch (`SubmitAnalyticsBatchDto`): both arrays
optional. -/
structure BatchDto where
  queries : Option (List SubmitQueryDto)
  events : Option (List SubmitEventDto)
  deriving DecidableEq

/-- One chunked bulk-write call handed to the store. -/
inductive StoreCall where
  | queries (docs : List UbiQuery)
  | events (docs : List UbiEvent)
  deriving DecidableEq

/-- Result of the detached `submitBatch` task: the bulk-write calls it
dispatched, and whether its batch-level catch handler fired. -/
structure BatchRun where
  calls : List StoreCall
  caught : Bool
  deriving DecidableEq

/-- The body of `AnalyticsService.submitBatch` (the `setImmediate`
closure): validate every query, then every event (`Promise.all`: a single
rejected validation rejects the whole step and control jumps to the
batch-level catch, which only logs); then bulk-index the surviving
queries, then the surviving events.  The bulk calls are one per chunk of
`chunksOf c`; store outcomes cannot abort them, so the dispatched calls
are independent of the store's behavior. -/
def submitBatchRun (allowedApplications : List String) (reg : Registry)
    (now : String) (c : Nat) (dto : BatchDto) : BatchRun :=
  let queries := dto.queries.getD []
  let events := dto.events.getD []
  match queries.mapM (validateAndTransformQuery allowedApplications reg now) with
  | .error _ => ⟨[], true⟩
  | .ok qres =>
    match events.mapM (validateAndTransformEvent reg now) with
    | .error _ => ⟨[], true⟩
    | .ok eres =>
      let validQueries := qres.filterMap id
      let validEvents := eres.filterMap id
      ⟨(if 0 < validQueries.length
          then (chunksOf c validQueries).map .queries else []) ++
       (if 0 < validEvents.length
          then (chunksOf c validEvents).map .events else []), false⟩

/-- Observable steps of the detached batch task, in program order:
completion of each record's validation (the join points of the two
`Promise.all`s precede everything after them), then the bulk writes. -/
inductive BatchEv where
  | qValidated (i : Nat) (result : Except Unit (Option UbiQuery))
  | eValidated (i : Nat) (result : Except Unit (Option UbiEvent))
  | write (call : StoreCall)
  deriving DecidableEq

/-- Linearized trace of `submitBatch`: all query validations resolve, then
all event validations, then the chunked writes (queries first).  When a
validation rejects, the catch handler ends the task with no writes. -/
def submitBatchTrace (allowedApplications : List String) (reg : Registry)
    (now : String) (c : Nat) (dto : BatchDto) : List BatchEv :=
  let queries := dto.queries.getD []
  let events := dto.events.getD []
  let qEvents := queries.enum.map (fun p =>
    BatchEv.qValidated p.1 (validateAndTransformQuery allowedApplications reg now p.2))
  match queries.mapM (validateAndTransformQuery allowedApplications reg now) with
  | .error _ => qEvents
  | .ok _ =>
    let eEvents := events.enum.map (fun p =>
      BatchEv.eValidated p.1 (validateAndTransformEvent reg now p.2))
    match events.mapM (validateAndTransformEvent reg now) with
    | .error _ => qEvents ++ eEvents
    | .ok _ =>
      (qEvents ++ eEvents) ++
        (submitBatchRun allowedApplications reg now c dto).calls.map .write

/-! ## Batch preflight (`validateSessionsInBatch`) and the request path -/

/-- Result of the synchronous preflight. -/
inductive PreflightResult where
  | accepted
  | unauthorized
  | redisFailed
  deriving DecidableEq

/-- The distinct truthy `client_id` strings of both arrays (the JS `Set`
built by `validateSessionsInBatch`; deduplication cannot change the
any-exists checks applied to it). -/
def batchClientIds (dto : BatchDto) : List String :=
  ((dto.queries.getD []).filterMap (fun q =>
      if present q.client_id then q.client_id else none) ++
   (dto.events.getD []).filterMap (fun e =>
      if present e.client_id then e.client_id else none)).dedup

/-- The session ids extractable from the batch's client ids (the
`sessionIds` array of `validateSessionsInBatch`). -/
def batchSessionIds (dto : BatchDto) : List String :=
  (batchClientIds dto).filterMap extractSessionId

/-- `AnalyticsService.validateSessionsInBatch`: return without rejecting
when the batch has no truthy `client_id` or when no session id can be
extracted from any of them; otherwise check every extracted id against
Redis concurrently (`Promise.all`, so one rejected call fails the whole
step) and throw `UnauthorizedException` only when every check came back
false. -/
def validateSessionsInBatch (reg : Registry) (dto : BatchDto) :
    PreflightResult :=
  if (batchClientIds dto).isEmpty then .accepted
  else if (batchSessionIds dto).isEmpty then .accepted
  else if (batchSessionIds dto).any (fun sid => reg.existsFails sid) then
    .redisFailed
  else if (batchSessionIds dto).any (fun sid => reg.sessionLive sid) then
    .accepted
  else .unauthorized

/-- Caller-visible rejection of `POST /analytics/batch`. -/
inductive ReqError where
  | validationError
  | unauthorized
  | internalError
  deriving DecidableEq

/-- The transport-level size bound of `SubmitAnalyticsBatchDto`: the
global `ValidationPipe` enforces `ArrayMaxSize(100)` on each array — a
hardcoded 100, independent of configuration. -/
def batchArraysWithinLimit (dto : BatchDto) : Bool :=
  (dto.queries.getD []).length ≤ 100 && (dto.events.getD []).length ≤ 100

/-- The `/analytics/batch` request path: DTO validation (including the
size bound) rejects before the controller runs; then the preflight; only
then is the detached `submitBatch` task dispatched, whose bulk calls are
returned here as the observable outcome. -/
def handleBatch (allowedApplications : List String) (reg : Registry)
    (now : String) (c : Nat) (dto : BatchDto) :
    Except ReqError (List StoreCall) :=
  if !batchArraysWithinLimit dto then .error .validationError
  else
    match validateSessionsInBatch reg dto with
    | .unauthorized => .error .unauthorized
    | .redisFailed => .error .internalError
    | .accepted =>
      .ok (submitBatchRun allowedApplications reg now c dto).calls

/-! ## Configuration (`app.config.ts`) -/

/-- `parseInt(s, 10)` on a string that may carry a sign and leading
digits; `none` models `NaN`. -/
def jsParseInt10 (s : String) : Option Int :=
  let p := match s.data with
    | '-' :: r => (true, r)
    | '+' :: r => (false, r)
    | r => (false, r)
  let ds := p.2.takeWhile Char.isDigit
  if ds.isEmpty then none
  else
    let n : Nat := ds.foldl (fun a c => a * 10 + (c.toNat - 48)) 0
    some (if p.1 then -(n : Int) else (n : Int))

/-- `app.analytics.maxBatchSize`:
`parseInt(process.env.MAX_BATCH_SIZE || '50', 10)`. -/
def maxBatchSizeConfig (env : Option String) : Option Int :=
  jsParseInt10 (match env with
    | some s => if s = "" then "50" else s
    | none => "50")

/-- `app.analytics.bulkChunkSize`:
`parseInt(process.env.BULK_CHUNK_SIZE || '20', 10)`. -/
def bulkChunkSizeConfig (env : Option String) : Option Int :=
  jsParseInt10 (match env with
    | some s => if s = "" then "20" else s
    | none => "20")

/-! ## Session initialization (`SessionService.initializeSession`) -/

/-- The response body of `GET /session/init`. -/
structure SessionResponse where
  session_id : String
  client_id : String
  wallet_address : Option String
  deriving DecidableEq

/-- What `initializeSession` did: the response and the Redis writes (the
session key, and the full wallet value written under
`session:wallet:<sessionId>` when one was stored). -/
structure InitSessionResult where
  response : SessionResponse
  storedSession : Bool
  storedWallet : Option String
  deriving DecidableEq

/-- JavaScript `s.trim()` on our character model: strip leading and
trailing whitespace. -/
def jsTrim (s : String) : String :=
  ⟨((s.data.dropWhile Char.isWhitespace).reverse.dropWhile
    Char.isWhitespace).reverse⟩

/-- JavaScript `s.substring(0, n)` on our character model. -/
def jsSubstring0 (s : String) (n : Nat) : String := ⟨s.data.take n⟩

/-- `SessionService.initializeSession`: reject a client name outside the
whitelist; store the session id; when a wallet address with nonempty trim
was supplied, store the full trimmed address under the session's wallet
key; append `@` plus the first 8 characters of the trimmed address to the
client id only when the trimmed address has at least 8 characters.  The
generated `randomUUID()` is passed in as `sessionId`. -/
def initializeSession (allowedClientNames : List String)
    (clientName clientVersion : String) (walletAddress : Option String)
    (sessionId : String) : Except Unit InitSessionResult :=
  if !(allowedClientNames.contains clientName) then .error ()
  else
    let storedWallet := match walletAddress with
      | some w => if 0 < (jsTrim w).length then some (jsTrim w) else none
      | none => none
    let baseId := clientName ++ "@" ++ clientVersion ++ "@" ++ sessionId
    let clientId := match walletAddress with
      | some w =>
        if 8 ≤ (jsTrim w).length then baseId ++ "@" ++ jsSubstring0 (jsTrim w) 8
        else baseId
      | none => baseId
    .ok { response := { session_id := sessionId, client_id := clientId,
                        wallet_address := storedWallet }
          storedSession := true
          storedWallet := storedWallet }

/-! ## Lemmas: splitting on a separator -/

lemma intercalate_cons_of_ne_nil (s : α) (a : List α) {l : List (List α)}
    (h : l ≠ []) : [s].intercalate (a :: l) = a ++ s :: [s].intercalate l := by
  cases l with
  | nil => exact absurd rfl h
  | cons b t =>
    simp [List.intercalate, List.intersperse_cons_cons]

lemma intercalate_three (s : α) (a b c : List α) :
    [s].intercalate [a, b, c] = a ++ s :: (b ++ s :: c) := by
  rw [intercalate_cons_of_ne_nil s a (by simp),
    intercalate_cons_of_ne_nil s b (by simp)]
  simp [List.intercalate]

lemma intercalate_four (s : α) (a b c d : List α) :
    [s].intercalate [a, b, c, d] = a ++ s :: (b ++ s :: (c ++ s :: d)) := by
  rw [intercalate_cons_of_ne_nil s a (by simp), intercalate_three]

lemma intercalate_five (s : α) (a b c d e : List α) :
    [s].intercalate [a, b, c, d, e] =
      a ++ s :: (b ++ s :: (c ++ s :: (d ++ s :: e))) := by
  rw [intercalate_cons_of_ne_nil s a (by simp), intercalate_four]

lemma splitOn_eq_three [DecidableEq α] {s : α} {cs n v u : List α}
    (h : cs.splitOn s = [n, v, u]) : cs = n ++ s :: (v ++ s :: u) := by
  have h2 : [s].intercalate (cs.splitOn s) = cs := List.intercalate_splitOn cs s
  rw [h, intercalate_three] at h2
  exact h2.symm

lemma splitOn_eq_four [DecidableEq α] {s : α} {cs n v u w : List α}
    (h : cs.splitOn s = [n, v, u, w]) :
    cs = n ++ s :: (v ++ s :: (u ++ s :: w)) := by
  have h2 : [s].intercalate (cs.splitOn s) = cs := List.intercalate_splitOn cs s
  rw [h, intercalate_four] at h2
  exact h2.symm

lemma splitOn_eq_five [DecidableEq α] {s : α} {cs a b c d e : List α}
    (h : cs.splitOn s = [a, b, c, d, e]) :
    cs = a ++ s :: (b ++ s :: (c ++ s :: (d ++ s :: e))) := by
  have h2 : [s].intercalate (cs.splitOn s) = cs := List.intercalate_splitOn cs s
  rw [h, intercalate_five] at h2
  exact h2.symm

lemma splitOn_three_of [DecidableEq α] {s : α} {n v u : List α}
    (hn : s ∉ n) (hv : s ∉ v) (hu : s ∉ u) :
    (n ++ s :: (v ++ s :: u)).splitOn s = [n, v, u] := by
  have h : ([s].intercalate [n, v, u]).splitOn s = [n, v, u] := by
    refine List.splitOn_intercalate _ s ?_ (by simp)
    intro l hl
    simp only [List.mem_cons, List.not_mem_nil, or_false] at hl
    rcases hl with rfl | rfl | rfl <;> assumption
  rwa [intercalate_three] at h

lemma splitOn_four_of [DecidableEq α] {s : α} {n v u w : List α}
    (hn : s ∉ n) (hv : s ∉ v) (hu : s ∉ u) (hw : s ∉ w) :
    (n ++ s :: (v ++ s :: (u ++ s :: w))).splitOn s = [n, v, u, w] := by
  have h : ([s].intercalate [n, v, u, w]).splitOn s = [n, v, u, w] := by
    refine List.splitOn_intercalate _ s ?_ (by simp)
    intro l hl
    simp only [List.mem_cons, List.not_mem_nil, or_false] at hl
    rcases hl with rfl | rfl | rfl | rfl <;> assumption
  rwa [intercalate_four] at h

/-! ## Lemmas: accepted segments never contain the separators -/

lemma all_imp_not_mem {p : Char → Bool} {l : List Char} (h : l.all p = true)
    {c : Char} (hc : p c = false) : c ∉ l := by
  intro hm
  have := List.all_eq_true.mp h c hm
  rw [hc] at this
  exact absurd this (by simp)

lemma nameOk_not_mem_at {n : List Char} (h : nameOk n = true) : '@' ∉ n := by
  unfold nameOk at h
  simp only [Bool.and_eq_true] at h
  exact all_imp_not_mem h.2 (by decide)

lemma nameChars_not_mem_at {n : List Char} (h : n.all isNameChar = true) :
    '@' ∉ n :=
  all_imp_not_mem h (by decide)

lemma semverSuffixOk_not_mem_at {m : Option Nat} {suf : List Char}
    (h : semverSuffixOk m suf = true) : '@' ∉ suf := by
  unfold semverSuffixOk at h
  simp only [Bool.and_eq_true] at h
  exact all_imp_not_mem h.1.2 (by decide)

lemma semverOk_not_mem_at {m : Option Nat} {cs : List Char}
    (h : semverOk m cs = true) : '@' ∉ cs := by
  intro hm
  unfold semverOk at h
  rcases Bool.and_eq_true_iff.mp h with ⟨h1, h2⟩
  have hsplit : cs.takeWhile (fun c => c ≠ '-') ++
      cs.dropWhile (fun c => c ≠ '-') = cs := List.takeWhile_append_dropWhile _ _
  rw [← hsplit] at hm
  rcases List.mem_append.mp hm with hcore | hrest
  · rcases hsp : (cs.takeWhile (fun c => c ≠ '-')).splitOn '.' with
      _ | ⟨a, _ | ⟨b, _ | ⟨c, _ | ⟨d, t⟩⟩⟩⟩ <;> rw [hsp] at h1
    · simp at h1
    · simp at h1
    · simp at h1
    · have h1' : (!a.isEmpty && !b.isEmpty && !c.isEmpty &&
          a.all Char.isDigit && b.all Char.isDigit &&
          c.all Char.isDigit) = true := h1
      simp only [Bool.and_eq_true] at h1'
      have hdecomp := splitOn_eq_three hsp
      rw [hdecomp] at hcore
      rcases List.mem_append.mp hcore with ha | hbc
      · exact absurd (List.all_eq_true.mp h1'.1.1.2 '@' ha) (by decide)
      · rcases List.mem_cons.mp hbc with hdot | hbc'
        · exact absurd hdot (by decide)
        · rcases List.mem_append.mp hbc' with hb | hc
          · exact absurd (List.all_eq_true.mp h1'.1.2 '@' hb) (by decide)
          · rcases List.mem_cons.mp hc with hdot | hc'
            · exact absurd hdot (by decide)
            · exact absurd (List.all_eq_true.mp h1'.2 '@' hc') (by decide)
    · simp at h1
  · rcases hd : cs.dropWhile (fun c => c ≠ '-') with _ | ⟨c0, suf⟩ <;>
      rw [hd] at h2 hrest
    · exact absurd hrest (List.not_mem_nil '@')
    · rcases Bool.and_eq_true_iff.mp h2 with ⟨hc0, hsuf⟩
      rcases List.mem_cons.mp hrest with hat | hat
      · rw [of_decide_eq_true hc0] at hat
        exact absurd hat (by decide)
      · exact absurd hat (semverSuffixOk_not_mem_at hsuf)

lemma uuidOk_not_mem_at {u : List Char} (h : uuidOk u = true) : '@' ∉ u := by
  intro hm
  unfold uuidOk at h
  rcases hsp : u.splitOn '-' with
    _ | ⟨a, _ | ⟨b, _ | ⟨c, _ | ⟨d, _ | ⟨e, _ | ⟨f, t⟩⟩⟩⟩⟩⟩ <;> rw [hsp] at h
  · simp at h
  · simp at h
  · simp at h
  · simp at h
  · simp at h
  · have h' : (decide (a.length = 8) && decide (b.length = 4) &&
        decide (c.length = 4) && decide (d.length = 4) &&
        decide (e.length = 12) &&
        (a ++ b ++ c ++ d ++ e).all isHexLower) = true := h
    simp only [Bool.and_eq_true] at h'
    have hnoat : '@' ∉ a ++ b ++ c ++ d ++ e :=
      all_imp_not_mem h'.2 (by decide)
    have hdecomp := splitOn_eq_five hsp
    rw [hdecomp] at hm
    apply hnoat
    have hdash : ('@' : Char) ≠ '-' := by decide
    rcases List.mem_append.mp hm with hx | hx
    · simp [List.mem_append, hx]
    rcases List.mem_cons.mp hx with hx | hx
    · exact absurd hx hdash
    rcases List.mem_append.mp hx with hx | hx
    · simp [List.mem_append, hx]
    rcases List.mem_cons.mp hx with hx | hx
    · exact absurd hx hdash
    rcases List.mem_append.mp hx with hx | hx
    · simp [List.mem_append, hx]
    rcases List.mem_cons.mp hx with hx | hx
    · exact absurd hx hdash
    rcases List.mem_append.mp hx with hx | hx
    · simp [List.mem_append, hx]
    rcases List.mem_cons.mp hx with hx | hx
    · exact absurd hx hdash
    · simp [List.mem_append, hx]
  · simp at h

lemma walletOk43_not_mem_at {w : List Char} (h : walletOk43 w = true) :
    '@' ∉ w := by
  unfold walletOk43 at h
  simp only [Bool.and_eq_true] at h
  exact all_imp_not_mem h.2 (by decide)

lemma sessLax_not_mem_at {u : List Char} (h : u.all isSessLaxChar = true) :
    '@' ∉ u :=
  all_imp_not_mem h (by decide)

lemma alnum_not_mem_at {t : List Char} (h : t.all Char.isAlphanum = true) :
    '@' ∉ t :=
  all_imp_not_mem h (by decide)

/-! ## C3: full-format validation of client identifiers -/

/-- C3, counterexample to the claim as stated.  The claim says full-format
validation accepts identifiers whose optional fourth segment is an
8-character wallet tag and rejects every string violating a segment
pattern.  The DTO-level validator (`IsValidClientId.validate`) rejects a
well-formed identifier carrying an 8-character tag (it demands exactly 43
base64url characters), while the in-service `CLIENT_ID_REGEX` accepts a
1-character tag (any nonempty alphanumeric run); neither check matches the
claimed 8-character-tag format. -/
theorem c3_counterexample :
    isValidClientId
      "web@1.0.0@11111111-1111-1111-1111-111111111111@abcd1234" = false ∧
    clientIdRegexTest
      "web@1.0.0@11111111-1111-1111-1111-111111111111@a" = true := by
  exact ⟨by decide, by decide⟩

/-- C3 (amended): the DTO-level validator accepts exactly the strings of
3 or 4 `@`-separated segments whose name is 2-50 alphanumeric/hyphen
characters, whose version matches the semver pattern with an optional
pre-release suffix of at most 20 characters, whose sessionId is a
canonical lowercase hyphenated UUID, and whose optional fourth segment is
exactly 43 base64url characters (not 8); the in-service regex used during
record validation is laxer, accepting exactly: a nonempty
alphanumeric/hyphen name, an unbounded pre-release suffix, any 36
characters over lowercase hex and hyphen as session segment, and any
nonempty alphanumeric fourth segment.  Every string not of one of these
shapes is rejected by the respective check. -/
theorem c3_client_id_format_characterization (cs : List Char) :
    (isValidClientIdL cs = true ↔
      (∃ n v u, cs = n ++ '@' :: (v ++ '@' :: u) ∧
        nameOk n = true ∧ semverOk (some 20) v = true ∧ uuidOk u = true) ∨
      (∃ n v u w, cs = n ++ '@' :: (v ++ '@' :: (u ++ '@' :: w)) ∧
        nameOk n = true ∧ semverOk (some 20) v = true ∧ uuidOk u = true ∧
        walletOk43 w = true)) ∧
    (clientIdRegexL cs = true ↔
      (∃ n v u, cs = n ++ '@' :: (v ++ '@' :: u) ∧
        (!n.isEmpty && n.all isNameChar) = true ∧ semverOk none v = true ∧
        u.length = 36 ∧ u.all isSessLaxChar = true) ∨
      (∃ n v u t, cs = n ++ '@' :: (v ++ '@' :: (u ++ '@' :: t)) ∧
        (!n.isEmpty && n.all isNameChar) = true ∧ semverOk none v = true ∧
        u.length = 36 ∧ u.all isSessLaxChar = true ∧
        (!t.isEmpty && t.all Char.isAlphanum) = true)) := by
  constructor
  · constructor
    · intro h
      unfold isValidClientIdL at h
      rcases hsp : cs.splitOn '@' with
        _ | ⟨n, _ | ⟨v, _ | ⟨u, _ | ⟨w, _ | ⟨x, t⟩⟩⟩⟩⟩ <;> rw [hsp] at h
      · simp at h
      · simp at h
      · simp at h
      · have h' : (nameOk n && semverOk (some 20) v && uuidOk u) = true := h
        simp only [Bool.and_eq_true] at h'
        exact Or.inl ⟨n, v, u, splitOn_eq_three hsp, h'.1.1, h'.1.2, h'.2⟩
      · have h' : (nameOk n && semverOk (some 20) v && uuidOk u &&
            walletOk43 w) = true := h
        simp only [Bool.and_eq_true] at h'
        exact Or.inr ⟨n, v, u, w, splitOn_eq_four hsp,
          h'.1.1.1, h'.1.1.2, h'.1.2, h'.2⟩
      · simp at h
    · rintro (⟨n, v, u, rfl, hn, hv, hu⟩ | ⟨n, v, u, w, rfl, hn, hv, hu, hw⟩)
      · unfold isValidClientIdL
        rw [splitOn_three_of (nameOk_not_mem_at hn) (semverOk_not_mem_at hv)
          (uuidOk_not_mem_at hu)]
        show (nameOk n && semverOk (some 20) v && uuidOk u) = true
        simp [hn, hv, hu]
      · unfold isValidClientIdL
        rw [splitOn_four_of (nameOk_not_mem_at hn) (semverOk_not_mem_at hv)
          (uuidOk_not_mem_at hu) (walletOk43_not_mem_at hw)]
        show (nameOk n && semverOk (some 20) v && uuidOk u &&
          walletOk43 w) = true
        simp [hn, hv, hu, hw]
  · constructor
    · intro h
      unfold clientIdRegexL at h
      rcases hsp : cs.splitOn '@' with
        _ | ⟨n, _ | ⟨v, _ | ⟨u, _ | ⟨w, _ | ⟨x, t⟩⟩⟩⟩⟩ <;> rw [hsp] at h
      · simp at h
      · simp at h
      · simp at h
      · have h' : (!n.isEmpty && n.all isNameChar && semverOk none v &&
            decide (u.length = 36) && u.all isSessLaxChar) = true := h
        simp only [Bool.and_eq_true] at h'
        exact Or.inl ⟨n, v, u, splitOn_eq_three hsp,
          by simp [h'.1.1.1.1, h'.1.1.1.2], h'.1.1.2,
          of_decide_eq_true h'.1.2, h'.2⟩
      · have h' : (!n.isEmpty && n.all isNameChar && semverOk none v &&
            decide (u.length = 36) && u.all isSessLaxChar &&
            !w.isEmpty && w.all Char.isAlphanum) = true := h
        simp only [Bool.and_eq_true] at h'
        exact Or.inr ⟨n, v, u, w, splitOn_eq_four hsp,
          by simp [h'.1.1.1.1.1.1, h'.1.1.1.1.1.2], h'.1.1.1.1.2,
          of_decide_eq_true h'.1.1.1.2, h'.1.1.2,
          by simp [h'.1.2, h'.2]⟩
      · simp at h
    · rintro (⟨n, v, u, rfl, hn, hv, hu36, hu⟩ |
        ⟨n, v, u, w, rfl, hn, hv, hu36, hu, ht⟩)
      · unfold clientIdRegexL
        simp only [Bool.and_eq_true] at hn
        rw [splitOn_three_of (nameChars_not_mem_at hn.2)
          (semverOk_not_mem_at hv) (sessLax_not_mem_at hu)]
        show (!n.isEmpty && n.all isNameChar && semverOk none v &&
          decide (u.length = 36) && u.all isSessLaxChar) = true
        simp [hn.1, hn.2, hv, hu36, hu]
      · unfold clientIdRegexL
        simp only [Bool.and_eq_true] at hn ht
        rw [splitOn_four_of (nameChars_not_mem_at hn.2)
          (semverOk_not_mem_at hv) (sessLax_not_mem_at hu)
          (alnum_not_mem_at ht.2)]
        show (!n.isEmpty && n.all isNameChar && semverOk none v &&
          decide (u.length = 36) && u.all isSessLaxChar &&
          !w.isEmpty && w.all Char.isAlphanum) = true
        simp [hn.1, hn.2, hv, hu36, hu, ht.1, ht.2]

example : isValidClientId "web@1.0.0@11111111-1111-1111-1111-111111111111" = true := by decide
example : isValidClientId
    "web@1.0.0@11111111-1111-1111-1111-111111111111@abcd1234" = false := by decide
example : clientIdRegexTest
    "web@1.0.0@11111111-1111-1111-1111-111111111111@abcd1234" = true := by decide
example : clientIdRegexTest
    "web@1.0.0@11111111-1111-1111-1111-111111111111@a" = true := by decide
example : isValidClientId
    "web@1.0.0@11111111-1111-1111-1111-111111111111@aaaaaaaaaaaaaaaaaaaaaaaaaaaaaaaaaaaaaaaa_-3"
    = true := by decide
example : extractSessionId "a@b@c@d" = some "c" := by decide
example : extractSessionId "foo" = none := by decide

/-! ## Concrete fixtures for witnesses and counterexamples -/

/-- A live session id. -/
def uuid1 : String := "11111111-1111-1111-1111-111111111111"

/-- A well-formed client id embedding `uuid1`. -/
def cid1 : String := "web@1.0.0@11111111-1111-1111-1111-111111111111"

/-- The default application allow-list of `app.config.ts`. -/
def appsFixture : List String :=
  ["graphql-images", "graphql-video", "graphql-audio"]

/-- A registry in which only `uuid1` is live, without wallets or
failures. -/
def regLive : Registry :=
  ⟨fun s => s == uuid1, fun _ => false, fun _ => none, fun _ => false⟩

/-- A registry with no live session and no failures. -/
def regDead : Registry :=
  ⟨fun _ => false, fun _ => false, fun _ => none, fun _ => false⟩

/-- A registry in which `uuid1` is live and carries a wallet. -/
def regWallet : Registry :=
  ⟨fun s => s == uuid1, fun _ => false,
   fun s => if s == uuid1 then some "abc123xyz789" else none, fun _ => false⟩

/-- A registry whose existence check rejects (connection failure) for
`uuid1`. -/
def regExistsFail : Registry :=
  ⟨fun _ => false, fun s => s == uuid1, fun _ => none, fun _ => false⟩

/-- A registry in which `uuid1` is live but the wallet lookup rejects. -/
def regWalletFail : Registry :=
  ⟨fun s => s == uuid1, fun _ => false, fun _ => none, fun s => s == uuid1⟩

/-- A well-formed query record referencing `uuid1`. -/
def qGood : SubmitQueryDto :=
  { application := some "graphql-images", query_id := some "q1",
    client_id := some cid1, user_query := some "test",
    query_attributes := none, object_id_field := none, timestamp := none,
    query_response_id := none, query_response_hit_ids := none }

/-- A query record whose `client_id` has fewer than 3 `@`-segments. -/
def qMalformedCid : SubmitQueryDto :=
  { application := some "graphql-images", query_id := some "q2",
    client_id := some "foo", user_query := some "test",
    query_attributes := none, object_id_field := none, timestamp := none,
    query_response_id := none, query_response_hit_ids := none }

/-- A well-formed event record referencing `uuid1`. -/
def eGood : SubmitEventDto :=
  { query_id := some "q1", action_name := some "click",
    client_id := some cid1, timestamp := none, event_attributes := none }

/-! ## C2: batch preflight -/

/-- C2, counterexample to the claim as stated.  The batch below contains
one client id (`foo`), and that client id does not resolve to any live
session (no session id can even be extracted from it), so the claim
demands an authorization rejection; `validateSessionsInBatch` accepts,
because it returns early when no session id could be extracted from any
client id. -/
theorem c2_counterexample :
    validateSessionsInBatch regDead ⟨some [qMalformedCid], none⟩ =
      PreflightResult.accepted ∧
    batchClientIds ⟨some [qMalformedCid], none⟩ = ["foo"] ∧
    extractSessionId "foo" = none := by
  exact ⟨by decide, by decide, by decide⟩

/-- C2 (amended): assuming no Redis existence check rejects, the preflight
raises the batch-level authorization error exactly when at least one
session id is extractable from the batch's client ids and none of the
extracted ids is live.  A batch with no client ids at all — and, beyond
the original claim, also one whose client ids all have fewer than 3
`@`-segments — is never rejected by preflight. -/
theorem c2_preflight_characterization (reg : Registry) (dto : BatchDto)
    (hnf : ∀ sid, reg.existsFails sid = false) :
    (validateSessionsInBatch reg dto = PreflightResult.unauthorized ↔
      (batchSessionIds dto ≠ [] ∧
        ∀ sid ∈ batchSessionIds dto, reg.sessionLive sid = false)) ∧
    (batchClientIds dto = [] →
      validateSessionsInBatch reg dto = PreflightResult.accepted) := by
  have hfail : (batchSessionIds dto).any (fun sid => reg.existsFails sid)
      = false := by
    rw [List.any_eq_false]
    intro sid _
    simp [hnf sid]
  constructor
  · unfold validateSessionsInBatch
    by_cases hc : (batchClientIds dto).isEmpty
    · have hs : (batchSessionIds dto).isEmpty := by
        unfold batchSessionIds
        rw [List.isEmpty_iff.mp hc]
        rfl
      simp [hc, List.isEmpty_iff.mp hs]
    · by_cases hs : (batchSessionIds dto).isEmpty
      · simp [hc, hs, List.isEmpty_iff.mp hs]
      · simp only [hc, hs, hfail, if_false, Bool.false_eq_true]
        by_cases hl : (batchSessionIds dto).any (fun sid => reg.sessionLive sid) = true
        · rcases List.any_eq_true.mp hl with ⟨sid, hmem, hlive⟩
          simp only [hl, if_true]
          constructor
          · intro h; exact absurd h (by decide)
          · rintro ⟨-, hall⟩
            rw [hall sid hmem] at hlive
            exact absurd hlive (by decide)
        · simp only [hl, if_false]
          constructor
          · intro _
            refine ⟨fun hnil => hs (by rw [hnil]; rfl), ?_⟩
            intro sid hmem
            by_contra hne
            exact hl (List.any_eq_true.mpr ⟨sid, hmem,
              by simpa using hne⟩)
          · intro _; rfl
  · intro hnone
    unfold validateSessionsInBatch
    simp [hnone]

/-- C2 witness: the characterization applied to a concrete dead-session
batch yields the authorization rejection. -/
theorem c2_preflight_characterization_witness :
    validateSessionsInBatch regDead ⟨some [qGood], none⟩ =
      PreflightResult.unauthorized :=
  (c2_preflight_characterization regDead ⟨some [qGood], none⟩
    (fun _ => rfl)).1.mpr (by decide)

/-! ## Lemmas: exhaustive behavior of the per-record validators -/

/-- The document a successful `validateAndTransformQuery` builds. -/
def mkUbiQuery (reg : Registry) (now sid : String) (dto : SubmitQueryDto) :
    UbiQuery :=
  { application := dto.application.getD ""
    query_id := dto.query_id.getD ""
    client_id := dto.client_id.getD ""
    user_query := dto.user_query.getD ""
    timestamp := orElseStr dto.timestamp now
    query_attributes :=
      attrsField (enrichAttrs (reg.wallet sid) (dto.query_attributes.getD []))
    object_id_field := keepIfTruthy dto.object_id_field
    query_response_id := keepIfTruthy dto.query_response_id
    query_response_hit_ids := dto.query_response_hit_ids }

/-- The document a successful `validateAndTransformEvent` builds. -/
def mkUbiEvent (reg : Registry) (now sid : String) (dto : SubmitEventDto) :
    UbiEvent :=
  { query_id := dto.query_id.getD ""
    action_name := dto.action_name.getD ""
    client_id := dto.client_id.getD ""
    timestamp := orElseStr dto.timestamp now
    event_attributes :=
      attrsField (enrichAttrs (reg.wallet sid) (dto.event_attributes.getD [])) }

section ValidationLemmas

variable {apps : List String} {reg : Registry} {now : String}

lemma validateQuery_accept {dto : SubmitQueryDto} {sid : String}
    (hreq : queryFieldsPresent dto = true)
    (happ : apps.contains (dto.application.getD "") = true)
    (hreg : clientIdRegexTest (dto.client_id.getD "") = true)
    (hext : extractSessionId (dto.client_id.getD "") = some sid)
    (hef : reg.existsFails sid = false)
    (hlive : reg.sessionLive sid = true)
    (hwf : reg.walletFails sid = false) :
    validateAndTransformQuery apps reg now dto =
      .ok (some (mkUbiQuery reg now sid dto)) := by
  have happ' : dto.application.getD "" ∈ apps := by simpa using happ
  unfold validateAndTransformQuery mkUbiQuery
  simp [hreq, happ', hreg, hext, isValidSession, hef, hlive,
    getWalletForSession, hwf, Bind.bind, Except.bind, pure, Except.pure]

lemma validateQuery_existsFail {dto : SubmitQueryDto} {sid : String}
    (hreq : queryFieldsPresent dto = true)
    (happ : apps.contains (dto.application.getD "") = true)
    (hreg : clientIdRegexTest (dto.client_id.getD "") = true)
    (hext : extractSessionId (dto.client_id.getD "") = some sid)
    (hef : reg.existsFails sid = true) :
    validateAndTransformQuery apps reg now dto = .error () := by
  have happ' : dto.application.getD "" ∈ apps := by simpa using happ
  unfold validateAndTransformQuery
  simp [hreq, happ', hreg, hext, isValidSession, hef, Bind.bind, Except.bind,
    pure, Except.pure]

lemma validateQuery_walletFail {dto : SubmitQueryDto} {sid : String}
    (hreq : queryFieldsPresent dto = true)
    (happ : apps.contains (dto.application.getD "") = true)
    (hreg : clientIdRegexTest (dto.client_id.getD "") = true)
    (hext : extractSessionId (dto.client_id.getD "") = some sid)
    (hef : reg.existsFails sid = false)
    (hlive : reg.sessionLive sid = true)
    (hwf : reg.walletFails sid = true) :
    validateAndTransformQuery apps reg now dto = .error () := by
  have happ' : dto.application.getD "" ∈ apps := by simpa using happ
  unfold validateAndTransformQuery
  simp [hreq, happ', hreg, hext, isValidSession, hef, hlive,
    getWalletForSession, hwf, Bind.bind, Except.bind, pure, Except.pure]

lemma validateQuery_reject_required {dto : SubmitQueryDto}
    (hreq : queryFieldsPresent dto = false) :
    validateAndTransformQuery apps reg now dto = .ok none := by
  unfold validateAndTransformQuery
  simp [hreq, pure, Except.pure]

lemma validateQuery_reject_app {dto : SubmitQueryDto}
    (hreq : queryFieldsPresent dto = true)
    (happ : apps.contains (dto.application.getD "") = false) :
    validateAndTransformQuery apps reg now dto = .ok none := by
  have happ' : dto.application.getD "" ∉ apps := by simpa using happ
  unfold validateAndTransformQuery
  simp [hreq, happ', pure, Except.pure, Bind.bind, Except.bind]

lemma validateQuery_reject_regex {dto : SubmitQueryDto}
    (hreq : queryFieldsPresent dto = true)
    (happ : apps.contains (dto.application.getD "") = true)
    (hreg : clientIdRegexTest (dto.client_id.getD "") = false) :
    validateAndTransformQuery apps reg now dto = .ok none := by
  have happ' : dto.application.getD "" ∈ apps := by simpa using happ
  unfold validateAndTransformQuery
  simp [hreq, happ', hreg, pure, Except.pure, Bind.bind, Except.bind]

lemma validateQuery_reject_extract {dto : SubmitQueryDto}
    (hreq : queryFieldsPresent dto = true)
    (happ : apps.contains (dto.application.getD "") = true)
    (hreg : clientIdRegexTest (dto.client_id.getD "") = true)
    (hext : extractSessionId (dto.client_id.getD "") = none) :
    validateAndTransformQuery apps reg now dto = .ok none := by
  have happ' : dto.application.getD "" ∈ apps := by simpa using happ
  unfold validateAndTransformQuery
  simp [hreq, happ', hreg, hext, pure, Except.pure, Bind.bind, Except.bind]

lemma validateQuery_reject_dead {dto : SubmitQueryDto} {sid : String}
    (hreq : queryFieldsPresent dto = true)
    (happ : apps.contains (dto.application.getD "") = true)
    (hreg : clientIdRegexTest (dto.client_id.getD "") = true)
    (hext : extractSessionId (dto.client_id.getD "") = some sid)
    (hef : reg.existsFails sid = false)
    (hlive : reg.sessionLive sid = false) :
    validateAndTransformQuery apps reg now dto = .ok none := by
  have happ' : dto.application.getD "" ∈ apps := by simpa using happ
  unfold validateAndTransformQuery
  simp [hreq, happ', hreg, hext, isValidSession, hef, hlive,
    Bind.bind, Except.bind, pure, Except.pure]

lemma validateEvent_accept {dto : SubmitEventDto} {sid : String}
    (hreq : eventFieldsPresent dto = true)
    (hreg : clientIdRegexTest (dto.client_id.getD "") = true)
    (hext : extractSessionId (dto.client_id.getD "") = some sid)
    (hef : reg.existsFails sid = false)
    (hlive : reg.sessionLive sid = true)
    (hwf : reg.walletFails sid = false) :
    validateAndTransformEvent reg now dto =
      .ok (some (mkUbiEvent reg now sid dto)) := by
  unfold validateAndTransformEvent mkUbiEvent
  simp [hreq, hreg, hext, isValidSession, hef, hlive,
    getWalletForSession, hwf, Bind.bind, Except.bind, pure, Except.pure]

lemma validateEvent_existsFail {dto : SubmitEventDto} {sid : String}
    (hreq : eventFieldsPresent dto = true)
    (hreg : clientIdRegexTest (dto.client_id.getD "") = true)
    (hext : extractSessionId (dto.client_id.getD "") = some sid)
    (hef : reg.existsFails sid = true) :
    validateAndTransformEvent reg now dto = .error () := by
  unfold validateAndTransformEvent
  simp [hreq, hreg, hext, isValidSession, hef, Bind.bind, Except.bind,
    pure, Except.pure]

lemma validateEvent_walletFail {dto : SubmitEventDto} {sid : String}
    (hreq : eventFieldsPresent dto = true)
    (hreg : clientIdRegexTest (dto.client_id.getD "") = true)
    (hext : extractSessionId (dto.client_id.getD "") = some sid)
    (hef : reg.existsFails sid = false)
    (hlive : reg.sessionLive sid = true)
    (hwf : reg.walletFails sid = true) :
    validateAndTransformEvent reg now dto = .error () := by
  unfold validateAndTransformEvent
  simp [hreq, hreg, hext, isValidSession, hef, hlive,
    getWalletForSession, hwf, Bind.bind, Except.bind, pure, Except.pure]

lemma validateEvent_reject_required {dto : SubmitEventDto}
    (hreq : eventFieldsPresent dto = false) :
    validateAndTransformEvent reg now dto = .ok none := by
  unfold validateAndTransformEvent
  simp [hreq, pure, Except.pure]

lemma validateEvent_reject_regex {dto : SubmitEventDto}
    (hreq : eventFieldsPresent dto = true)
    (hreg : clientIdRegexTest (dto.client_id.getD "") = false) :
    validateAndTransformEvent reg now dto = .ok none := by
  unfold validateAndTransformEvent
  simp [hreq, hreg, pure, Except.pure, Bind.bind, Except.bind]

lemma validateEvent_reject_extract {dto : SubmitEventDto}
    (hreq : eventFieldsPresent dto = true)
    (hreg : clientIdRegexTest (dto.client_id.getD "") = true)
    (hext : extractSessionId (dto.client_id.getD "") = none) :
    validateAndTransformEvent reg now dto = .ok none := by
  unfold validateAndTransformEvent
  simp [hreq, hreg, hext, pure, Except.pure, Bind.bind, Except.bind]

lemma validateEvent_reject_dead {dto : SubmitEventDto} {sid : String}
    (hreq : eventFieldsPresent dto = true)
    (hreg : clientIdRegexTest (dto.client_id.getD "") = true)
    (hext : extractSessionId (dto.client_id.getD "") = some sid)
    (hef : reg.existsFails sid = false)
    (hlive : reg.sessionLive sid = false) :
    validateAndTransformEvent reg now dto = .ok none := by
  unfold validateAndTransformEvent
  simp [hreq, hreg, hext, isValidSession, hef, hlive,
    Bind.bind, Except.bind, pure, Except.pure]

end ValidationLemmas

/-! ## Lemmas: shape of the chunking loop -/

lemma chunksOf_flatten (c : Nat) (l : List α) :
    (chunksOf c l).flatten = l := by
  have aux : ∀ (n : Nat) (l : List α), l.length ≤ n →
      (chunksOf c l).flatten = l := by
    intro n
    induction n with
    | zero =>
      intro l h
      cases l with
      | nil => simp
      | cons x xs => simp at h
    | succ n ih =>
      intro l h
      cases l with
      | nil => simp
      | cons x xs =>
        rw [chunksOf_cons]
        simp only [List.flatten_cons]
        rw [ih (xs.drop (c - 1)) (by rw [List.length_drop]; simp at h; omega)]
        simp [List.take_append_drop]
  exact aux l.length l le_rfl

lemma mem_of_mem_chunksOf {c : Nat} {l ch : List α} {x : α}
    (hch : ch ∈ chunksOf c l) (hx : x ∈ ch) : x ∈ l := by
  rw [← chunksOf_flatten c l]
  exact List.mem_flatten.mpr ⟨ch, hch, hx⟩

lemma chunksOf_length (c : Nat) (hc : 0 < c) (l : List α) :
    (chunksOf c l).length = (l.length + c - 1) / c := by
  have aux : ∀ (n : Nat) (l : List α), l.length ≤ n →
      (chunksOf c l).length = (l.length + c - 1) / c := by
    intro n
    induction n with
    | zero =>
      intro l h
      cases l with
      | nil => simp [Nat.div_eq_of_lt (by omega : c - 1 < c)]
      | cons x xs => simp at h
    | succ n ih =>
      intro l h
      cases l with
      | nil => simp [Nat.div_eq_of_lt (by omega : c - 1 < c)]
      | cons x xs =>
        rw [chunksOf_cons]
        simp only [List.length_cons]
        rw [ih (xs.drop (c - 1)) (by rw [List.length_drop]; simp at h; omega),
          List.length_drop]
        have hR : (xs.length + 1 + c - 1) / c = xs.length / c + 1 := by
          have : xs.length + 1 + c - 1 = xs.length + c := by omega
          rw [this, Nat.add_div_right _ hc]
        rcases Nat.lt_or_ge xs.length (c - 1) with hcase | hcase
        · have h1 : xs.length - (c - 1) = 0 := by omega
          rw [h1, hR]
          have h2 : (0 + c - 1) / c = 0 := Nat.div_eq_of_lt (by omega)
          have h4 : xs.length / c = 0 := Nat.div_eq_of_lt (by omega)
          omega
        · have h1 : xs.length - (c - 1) + c - 1 = xs.length := by omega
          rw [h1, hR]
  exact aux l.length l le_rfl

lemma chunksOf_getElem (c : Nat) (hc : 0 < c) (l : List α) (i : Nat) :
    (chunksOf c l)[i]? =
      if i * c < l.length then some ((l.drop (i * c)).take c) else none := by
  obtain ⟨c', rfl⟩ : ∃ c', c = c' + 1 := ⟨c - 1, by omega⟩
  have aux : ∀ (n : Nat) (l : List α), l.length ≤ n → ∀ i,
      (chunksOf (c' + 1) l)[i]? =
        if i * (c' + 1) < l.length then
          some ((l.drop (i * (c' + 1))).take (c' + 1)) else none := by
    intro n
    induction n with
    | zero =>
      intro l h i
      cases l with
      | nil => simp
      | cons x xs => simp at h
    | succ n ih =>
      intro l h i
      cases l with
      | nil => simp
      | cons x xs =>
        rw [chunksOf_cons]
        simp only [Nat.add_sub_cancel]
        cases i with
        | zero =>
          simp [List.take_succ_cons]
        | succ j =>
          have hdroplen : xs.length ≤ n := by simpa using h
          rw [List.getElem?_cons_succ,
            ih (xs.drop c') (by rw [List.length_drop]; omega) j]
          have hmul : (j + 1) * (c' + 1) = j * (c' + 1) + (c' + 1) :=
            Nat.succ_mul _ _
          have hdd : (xs.drop c').drop (j * (c' + 1)) =
              (x :: xs).drop ((j + 1) * (c' + 1)) := by
            rw [hmul]
            have : j * (c' + 1) + (c' + 1) = (j * (c' + 1) + c') + 1 := by
              omega
            rw [this, List.drop_succ_cons, List.drop_drop]
            congr 1
            omega
          rw [List.length_drop]
          by_cases hcond : j * (c' + 1) < xs.length - c'
          · rw [if_pos hcond, if_pos (by simp only [List.length_cons]; omega),
              hdd]
          · rw [if_neg hcond, if_neg (by simp only [List.length_cons]; omega)]
  exact aux l.length l le_rfl i

lemma bulkIndexTrace_map_fst (store : List α → Except String BulkResponse)
    (c : Nat) (l : List α) :
    (bulkIndexTrace store c l).map Prod.fst = chunksOf c l := by
  have aux : ∀ (n : Nat) (l : List α), l.length ≤ n →
      (bulkIndexTrace store c l).map Prod.fst = chunksOf c l := by
    intro n
    induction n with
    | zero =>
      intro l h
      cases l with
      | nil => simp
      | cons x xs => simp at h
    | succ n ih =>
      intro l h
      cases l with
      | nil => simp
      | cons x xs =>
        rw [bulkIndexTrace_cons, chunksOf_cons]
        simp only [List.map_cons]
        rw [ih (xs.drop (c - 1)) (by rw [List.length_drop]; simp at h; omega)]
  exact aux l.length l le_rfl

/-! ## C8: chunked sequential bulk writes -/

/-- C8: for every document list and chunk size `c > 0`, the bulk loop
issues exactly `ceil(n / c)` store calls, sequentially in trace order,
the `i`-th call carrying the documents at positions `i*c` through
`min((i+1)*c, n) - 1` in their original order, every document in exactly
one chunk.  The dispatched chunks are the same for every store behavior
(the loop catches a failed call and continues), so one chunk's failure
does not prevent subsequent chunks. -/
theorem c8_chunked_bulk_writer {α : Type}
    (store : List α → Except String BulkResponse) (c : Nat) (hc : 0 < c)
    (docs : List α) :
    (bulkIndexTrace store c docs).length = (docs.length + c - 1) / c ∧
    (bulkIndexTrace store c docs).map Prod.fst = chunksOf c docs ∧
    (∀ i, (chunksOf c docs)[i]? =
      if i * c < docs.length then some ((docs.drop (i * c)).take c)
      else none) ∧
    (chunksOf c docs).flatten = docs := by
  refine ⟨?_, bulkIndexTrace_map_fst store c docs,
    fun i => chunksOf_getElem c hc docs i, chunksOf_flatten c docs⟩
  have hlen := congrArg List.length (bulkIndexTrace_map_fst store c docs)
  rw [List.length_map] at hlen
  rw [hlen, chunksOf_length c hc docs]

/-- A stored query document used as a concrete bulk payload. -/
def uq1 : UbiQuery :=
  { application := "graphql-images", query_id := "q1", client_id := cid1,
    user_query := "test", timestamp := "2024-01-01T00:00:00.000Z",
    query_attributes := none, object_id_field := none,
    query_response_id := none, query_response_hit_ids := none }

/-- A second stored query document. -/
def uq2 : UbiQuery := { uq1 with query_id := "q2" }

/-- A third stored query document. -/
def uq3 : UbiQuery := { uq1 with query_id := "q3" }

/-- A store whose every bulk call throws (connection refused). -/
def storeDown : List UbiQuery → Except String BulkResponse :=
  fun _ => .error "connection refused"

/-- C8 witness: three documents at chunk size 2 under a store that throws
on every call still produce two sequential calls carrying the two slices. -/
theorem c8_chunked_bulk_writer_witness :
    (bulkIndexTrace storeDown 2 [uq1, uq2, uq3]).length = 2 ∧
    (bulkIndexTrace storeDown 2 [uq1, uq2, uq3]).map Prod.fst =
      [[uq1, uq2], [uq3]] := by
  have h := c8_chunked_bulk_writer storeDown 2 (by decide) [uq1, uq2, uq3]
  constructor
  · rw [h.1]
    decide
  · rw [h.2.1]
    decide

/-! ## C1: per-item error handling of the chunked bulk write -/

/-- A bulk response reporting a single per-item 409 conflict (duplicate
`query_id` on create). -/
def conflictResp : BulkResponse :=
  ⟨true, [⟨"q1", 409, some "version conflict, document already exists"⟩]⟩

/-- A store answering every bulk call with `conflictResp`. -/
def store409 : List UbiQuery → Except String BulkResponse :=
  fun _ => .ok conflictResp

/-- C1, counterexample to the claim as stated.  A chunk whose only
per-item result is a duplicate-id 409 conflict: `bulkIndexQueries`
collects it into the diagnostic list it logs via `logger.error` — the
conflict is not separated from genuine errors and not swallowed at debug
level in the bulk path. -/
theorem c1_counterexample :
    bulkQueriesLoggedErrors store409 20 [uq1] =
      [("q1", "version conflict, document already exists")] ∧
    conflictResp.items.all (fun it => it.status == 409) = true := by
  exact ⟨by decide, by decide⟩

/-- C1 (amended): the chunked bulk path inspects per-item results but
does not separate duplicate-id conflicts from genuine errors: whenever a
chunk's response has the `errors` flag set, every item carrying an error
— a 409 conflict like any other failure — is collected into the
diagnostic list logged at error level, and a thrown chunk call is caught
so subsequent chunks are still dispatched; only the deprecated
single-document `indexQuery` path swallows a 409 conflict as a
debug-level no-op while logging other failures as errors. -/
theorem c1_bulk_error_collection
    (store : List UbiQuery → Except String BulkResponse) (c : Nat)
    (docs : List UbiQuery) :
    ((bulkIndexTrace store c docs).map Prod.fst = chunksOf c docs) ∧
    (∀ entry ∈ bulkIndexTrace store c docs, ∀ resp,
      entry.2 = Except.ok resp → resp.errors = true →
      ∀ it ∈ resp.items, it.errorReason.isSome = true →
        (it.id, it.errorReason.getD "Unknown error") ∈
          chunkLoggedErrors entry.2) ∧
    indexQueryLog (IndexOutcome.failed (some 409) "conflict") =
      LogLevel.debug ∧
    (∀ sc msg, sc ≠ some 409 →
      indexQueryLog (IndexOutcome.failed sc msg) = LogLevel.error) := by
  refine ⟨bulkIndexTrace_map_fst store c docs, ?_, rfl, ?_⟩
  · intro entry _ resp h2 herr it hit hsome
    have hred : chunkLoggedErrors (Except.ok resp) =
        if resp.errors = true then erroredDocsOfItems resp.items else [] := rfl
    rw [h2, hred, if_pos herr]
    unfold erroredDocsOfItems
    exact List.mem_map.mpr ⟨it, List.mem_filter.mpr ⟨hit, hsome⟩, rfl⟩
  · intro sc msg hne
    unfold indexQueryLog
    simp [hne]

/-- C1 witness: the amended theorem applied to the concrete 409-conflict
response shows the conflict entry in the error-logged list. -/
theorem c1_bulk_error_collection_witness :
    ("q1", "version conflict, document already exists") ∈
      chunkLoggedErrors (Except.ok conflictResp) := by
  have h := c1_bulk_error_collection store409 20 [uq1]
  have hm := h.2.1 ([uq1], Except.ok conflictResp) (by decide) conflictResp
    rfl (by decide) ⟨"q1", 409, some "version conflict, document already exists"⟩
    (by decide) (by decide)
  exact hm

/-! ## Lemmas: `Promise.all` over validations (`List.mapM` in `Except`) -/

lemma mapM_error_of_mem {α β : Type} {f : α → Except Unit β} {l : List α}
    {x : α} (hx : x ∈ l) (hf : f x = .error ()) : l.mapM f = .error () := by
  induction l with
  | nil => cases hx
  | cons a t ih =>
    rw [List.mapM_cons]
    rcases List.mem_cons.mp hx with rfl | hmem
    · rw [hf]; rfl
    · cases hfa : f a with
      | error e => cases e; rfl
      | ok b => rw [ih hmem]; rfl

lemma mapM_ok_mem {α β : Type} {f : α → Except Unit β} :
    ∀ {l : List α} {res : List β}, l.mapM f = .ok res →
      ∀ b ∈ res, ∃ a ∈ l, f a = .ok b := by
  intro l
  induction l with
  | nil =>
    intro res h b hb
    have h' : (Except.ok ([] : List β) : Except Unit (List β)) =
        .ok res := h
    injection h' with h''
    rw [← h''] at hb
    cases hb
  | cons a t ih =>
    intro res h b hb
    rw [List.mapM_cons] at h
    cases hfa : f a with
    | error e =>
      rw [hfa] at h
      exact absurd ((rfl : (Except.error () : Except Unit (List β)) =
        .error ()).symm.trans h) (by intro hcon; cases hcon)
    | ok b0 =>
      rw [hfa] at h
      cases hmt : t.mapM f with
      | error e =>
        rw [hmt] at h
        exact absurd ((rfl : (Except.error () : Except Unit (List β)) =
          .error ()).symm.trans h) (by intro hcon; cases hcon)
      | ok bs =>
        rw [hmt] at h
        have h2 : (Except.ok (b0 :: bs) : Except Unit (List β)) =
            .ok res := h
        injection h2 with h3
        rcases List.mem_cons.mp (h3 ▸ hb) with rfl | hmem
        · exact ⟨a, List.mem_cons_self a t, hfa⟩
        · obtain ⟨a', ha', hfa'⟩ := ih hmt b hmem
          exact ⟨a', List.mem_cons_of_mem _ ha', hfa'⟩

/-! ## Lemmas: behavior of the detached batch task -/

lemma submitBatchRun_query_error {apps : List String} {reg : Registry}
    {now : String} {c : Nat} {dto : BatchDto}
    (h : ∃ q ∈ dto.queries.getD [],
      validateAndTransformQuery apps reg now q = .error ()) :
    submitBatchRun apps reg now c dto = ⟨[], true⟩ := by
  obtain ⟨q, hq, hv⟩ := h
  simp only [submitBatchRun]
  rw [mapM_error_of_mem hq hv]

lemma submitBatchRun_event_error {apps : List String} {reg : Registry}
    {now : String} {c : Nat} {dto : BatchDto}
    (h : ∃ e ∈ dto.events.getD [],
      validateAndTransformEvent reg now e = .error ()) :
    submitBatchRun apps reg now c dto = ⟨[], true⟩ := by
  obtain ⟨e, he, hv⟩ := h
  simp only [submitBatchRun]
  cases hq : (dto.queries.getD []).mapM
      (validateAndTransformQuery apps reg now) with
  | error e' => rfl
  | ok qres => rw [mapM_error_of_mem he hv]

lemma submitBatchRun_ok {apps : List String} {reg : Registry} {now : String}
    {c : Nat} {dto : BatchDto} {qres : List (Option UbiQuery)}
    {eres : List (Option UbiEvent)}
    (hq : (dto.queries.getD []).mapM
      (validateAndTransformQuery apps reg now) = .ok qres)
    (he : (dto.events.getD []).mapM
      (validateAndTransformEvent reg now) = .ok eres) :
    submitBatchRun apps reg now c dto =
      ⟨(if 0 < (qres.filterMap id).length
          then (chunksOf c (qres.filterMap id)).map .queries else []) ++
       (if 0 < (eres.filterMap id).length
          then (chunksOf c (eres.filterMap id)).map .events else []),
       false⟩ := by
  simp only [submitBatchRun]
  rw [hq, he]

/-! ## C4: registry failure during single-record validation -/

/-- A second session id, dead and with a failing existence check. -/
def uuid2 : String := "22222222-2222-2222-2222-222222222222"

/-- A well-formed client id embedding `uuid2`. -/
def cid2 : String := "web@1.0.0@22222222-2222-2222-2222-222222222222"

/-- A registry where `uuid1` is live and the existence check for `uuid2`
rejects (connection failure / timeout). -/
def reg4 : Registry :=
  ⟨fun s => s == uuid1, fun s => s == uuid2, fun _ => none, fun _ => false⟩

/-- A well-formed query record whose session's existence check rejects. -/
def q4bad : SubmitQueryDto :=
  { qGood with
    query_id := some "q2"
    client_id := some cid2 }

/-- C4, counterexample to the claim as stated.  In a batch holding a valid
sibling (`qGood`, which validates to a document on its own) and a record
whose registry existence check rejects (`q4bad`), the rejection is not
treated as "session not found": it propagates out of the single-record
validation to the batch task's catch handler, which abandons the batch —
no bulk-write call is dispatched and the valid sibling is not persisted. -/
theorem c4_counterexample :
    validateAndTransformQuery appsFixture reg4 "t0" q4bad =
      Except.error () ∧
    validateAndTransformQuery appsFixture reg4 "t0" qGood =
      Except.ok (some (mkUbiQuery reg4 "t0" uuid1 qGood)) ∧
    submitBatchRun appsFixture reg4 "t0" 20 ⟨some [qGood, q4bad], none⟩ =
      ⟨[], true⟩ := by
  exact ⟨by decide, by decide, by decide⟩

/-- C4 (amended): a failed registry existence check is not swallowed as
"not found" — it propagates out of the single-record validation as an
exception, and the batch-level catch in `submitBatch` then abandons the
whole batch: no bulk-write call is dispatched for either kind, valid
sibling records included, and the failure is only logged. -/
theorem c4_exists_failure_aborts_batch (apps : List String) (reg : Registry)
    (now : String) (c : Nat) (dto : BatchDto) :
    (∀ q ∈ dto.queries.getD [], ∀ sid,
      queryFieldsPresent q = true →
      apps.contains (q.application.getD "") = true →
      clientIdRegexTest (q.client_id.getD "") = true →
      extractSessionId (q.client_id.getD "") = some sid →
      reg.existsFails sid = true →
      validateAndTransformQuery apps reg now q = Except.error ()) ∧
    ((∃ q ∈ dto.queries.getD [],
        validateAndTransformQuery apps reg now q = Except.error ()) →
      submitBatchRun apps reg now c dto = ⟨[], true⟩) ∧
    ((∃ e ∈ dto.events.getD [],
        validateAndTransformEvent reg now e = Except.error ()) →
      submitBatchRun apps reg now c dto = ⟨[], true⟩) := by
  refine ⟨?_, submitBatchRun_query_error, submitBatchRun_event_error⟩
  intro q _ sid h1 h2 h3 h4 h5
  exact validateQuery_existsFail h1 h2 h3 h4 h5

/-- C4 witness: the amended theorem applied to the concrete batch of
`c4_counterexample` — the failing record aborts the whole batch. -/
theorem c4_exists_failure_aborts_batch_witness :
    submitBatchRun appsFixture reg4 "t0" 20 ⟨some [qGood, q4bad], none⟩ =
      ⟨[], true⟩ := by
  have h := c4_exists_failure_aborts_batch appsFixture reg4 "t0" 20
    ⟨some [qGood, q4bad], none⟩
  refine h.2.1 ⟨q4bad, by decide, ?_⟩
  exact h.1 q4bad (by decide) uuid2 (by decide) (by decide) (by decide)
    (by decide) (by decide)

/-! ## C5: acceptance conditions of the per-record validators -/

lemma bool_eq_false {b : Bool} (h : ¬ b = true) : b = false := by
  cases b with
  | false => rfl
  | true => exact absurd rfl h

/-- C5: with a responsive registry (no rejected calls), `validateQuery`
returns a record exactly when all four required fields are truthy, the
application is allow-listed, the client id passes the in-service format
check, and the extracted session id is live in the registry — and returns
null otherwise; `validateEvent` behaves the same without the application
check. -/
theorem c5_validate_accept_iff (apps : List String) (reg : Registry)
    (now : String)
    (hE : ∀ sid, reg.existsFails sid = false)
    (hW : ∀ sid, reg.walletFails sid = false) :
    (∀ dto : SubmitQueryDto,
      (validateAndTransformQuery apps reg now dto = Except.ok none ∨
        ∃ r, validateAndTransformQuery apps reg now dto =
          Except.ok (some r)) ∧
      ((∃ r, validateAndTransformQuery apps reg now dto =
          Except.ok (some r)) ↔
        (queryFieldsPresent dto = true ∧
         apps.contains (dto.application.getD "") = true ∧
         clientIdRegexTest (dto.client_id.getD "") = true ∧
         ∃ sid, extractSessionId (dto.client_id.getD "") = some sid ∧
           reg.sessionLive sid = true))) ∧
    (∀ dto : SubmitEventDto,
      (validateAndTransformEvent reg now dto = Except.ok none ∨
        ∃ r, validateAndTransformEvent reg now dto = Except.ok (some r)) ∧
      ((∃ r, validateAndTransformEvent reg now dto = Except.ok (some r)) ↔
        (eventFieldsPresent dto = true ∧
         clientIdRegexTest (dto.client_id.getD "") = true ∧
         ∃ sid, extractSessionId (dto.client_id.getD "") = some sid ∧
           reg.sessionLive sid = true))) := by
  constructor
  · intro dto
    by_cases h1 : queryFieldsPresent dto = true
    · by_cases h2 : apps.contains (dto.application.getD "") = true
      · by_cases h3 : clientIdRegexTest (dto.client_id.getD "") = true
        · cases hext : extractSessionId (dto.client_id.getD "") with
          | none =>
            have hres : validateAndTransformQuery apps reg now dto =
                Except.ok none := validateQuery_reject_extract h1 h2 h3 hext
            refine ⟨Or.inl hres, ?_, ?_⟩
            · rintro ⟨r, hr⟩
              rw [hres] at hr
              simp at hr
            · rintro ⟨-, -, -, sid, hsid, -⟩
              cases hsid
          | some sid =>
            by_cases h5 : reg.sessionLive sid = true
            · have hres : validateAndTransformQuery apps reg now dto =
                  Except.ok (some (mkUbiQuery reg now sid dto)) :=
                validateQuery_accept h1 h2 h3 hext (hE sid) h5 (hW sid)
              exact ⟨Or.inr ⟨_, hres⟩,
                fun _ => ⟨h1, h2, h3, sid, rfl, h5⟩, fun _ => ⟨_, hres⟩⟩
            · have hres : validateAndTransformQuery apps reg now dto =
                  Except.ok none :=
                validateQuery_reject_dead h1 h2 h3 hext (hE sid)
                  (bool_eq_false h5)
              refine ⟨Or.inl hres, ?_, ?_⟩
              · rintro ⟨r, hr⟩
                rw [hres] at hr
                simp at hr
              · rintro ⟨-, -, -, sid', hsid', hlive'⟩
                injection hsid' with hh
                rw [← hh] at hlive'
                exact absurd hlive' h5
        · have hres : validateAndTransformQuery apps reg now dto =
              Except.ok none :=
            validateQuery_reject_regex h1 h2 (bool_eq_false h3)
          refine ⟨Or.inl hres, ?_, ?_⟩
          · rintro ⟨r, hr⟩
            rw [hres] at hr
            simp at hr
          · rintro ⟨-, -, hcl, -⟩
            exact absurd hcl h3
      · have hres : validateAndTransformQuery apps reg now dto =
            Except.ok none := validateQuery_reject_app h1 (bool_eq_false h2)
        refine ⟨Or.inl hres, ?_, ?_⟩
        · rintro ⟨r, hr⟩
          rw [hres] at hr
          simp at hr
        · rintro ⟨-, hap, -⟩
          exact absurd hap h2
    · have hres : validateAndTransformQuery apps reg now dto =
          Except.ok none := validateQuery_reject_required (bool_eq_false h1)
      refine ⟨Or.inl hres, ?_, ?_⟩
      · rintro ⟨r, hr⟩
        rw [hres] at hr
        simp at hr
      · rintro ⟨hfp, -⟩
        exact absurd hfp h1
  · intro dto
    by_cases h1 : eventFieldsPresent dto = true
    · by_cases h3 : clientIdRegexTest (dto.client_id.getD "") = true
      · cases hext : extractSessionId (dto.client_id.getD "") with
        | none =>
          have hres : validateAndTransformEvent reg now dto =
              Except.ok none := validateEvent_reject_extract h1 h3 hext
          refine ⟨Or.inl hres, ?_, ?_⟩
          · rintro ⟨r, hr⟩
            rw [hres] at hr
            simp at hr
          · rintro ⟨-, -, sid, hsid, -⟩
            cases hsid
        | some sid =>
          by_cases h5 : reg.sessionLive sid = true
          · have hres : validateAndTransformEvent reg now dto =
                Except.ok (some (mkUbiEvent reg now sid dto)) :=
              validateEvent_accept h1 h3 hext (hE sid) h5 (hW sid)
            exact ⟨Or.inr ⟨_, hres⟩,
              fun _ => ⟨h1, h3, sid, rfl, h5⟩, fun _ => ⟨_, hres⟩⟩
          · have hres : validateAndTransformEvent reg now dto =
                Except.ok none :=
              validateEvent_reject_dead h1 h3 hext (hE sid)
                (bool_eq_false h5)
            refine ⟨Or.inl hres, ?_, ?_⟩
            · rintro ⟨r, hr⟩
              rw [hres] at hr
              simp at hr
            · rintro ⟨-, -, sid', hsid', hlive'⟩
              injection hsid' with hh
              rw [← hh] at hlive'
              exact absurd hlive' h5
      · have hres : validateAndTransformEvent reg now dto =
            Except.ok none := validateEvent_reject_regex h1 (bool_eq_false h3)
        refine ⟨Or.inl hres, ?_, ?_⟩
        · rintro ⟨r, hr⟩
          rw [hres] at hr
          simp at hr
        · rintro ⟨-, hcl, -⟩
          exact absurd hcl h3
    · have hres : validateAndTransformEvent reg now dto =
          Except.ok none := validateEvent_reject_required (bool_eq_false h1)
      refine ⟨Or.inl hres, ?_, ?_⟩
      · rintro ⟨r, hr⟩
        rw [hres] at hr
        simp at hr
      · rintro ⟨hfp, -⟩
        exact absurd hfp h1

/-- C5 witness: concrete accept and reject outcomes derived from the
characterization at a live registry. -/
theorem c5_validate_accept_iff_witness :
    (∃ r, validateAndTransformQuery appsFixture regLive "t0" qGood =
      Except.ok (some r)) ∧
    validateAndTransformQuery appsFixture regLive "t0" qMalformedCid =
      Except.ok none ∧
    (∃ r, validateAndTransformEvent regLive "t0" eGood =
      Except.ok (some r)) := by
  have h := c5_validate_accept_iff appsFixture regLive "t0"
    (fun _ => rfl) (fun _ => rfl)
  refine ⟨(h.1 qGood).2.mpr
    ⟨by decide, by decide, by decide, uuid1, by decide, by decide⟩, ?_,
    (h.2 eGood).2.mpr ⟨by decide, by decide, uuid1, by decide, by decide⟩⟩
  rcases (h.1 qMalformedCid).1 with hnone | ⟨r, hr⟩
  · exact hnone
  · obtain ⟨-, -, hcl, -⟩ := (h.1 qMalformedCid).2.mp ⟨r, hr⟩
    exact absurd hcl (by decide)

/-! ## C7: wallet enrichment -/

lemma lookupKey_setKey_same (a : Attrs) (k : String) (v : AttrVal) :
    lookupKey (setKey a k v) k = some v := by
  induction a with
  | nil => simp [setKey, lookupKey]
  | cons p rest ih =>
    obtain ⟨k', v'⟩ := p
    by_cases h : k' = k
    · simp [setKey, h, lookupKey]
    · simp [setKey, h, lookupKey, ih]

lemma lookupKey_setKey_other (a : Attrs) (k : String) (v : AttrVal)
    (k' : String) (h : k' ≠ k) :
    lookupKey (setKey a k v) k' = lookupKey a k' := by
  induction a with
  | nil =>
    show (if k = k' then some v else lookupKey [] k') = none
    rw [if_neg (Ne.symm h)]
    rfl
  | cons p rest ih =>
    obtain ⟨k0, v0⟩ := p
    show lookupKey (if k0 = k then (k, v) :: rest
      else (k0, v0) :: setKey rest k v) k' = _
    by_cases h0 : k0 = k
    · rw [if_pos h0]
      show (if k = k' then some v else lookupKey rest k') =
        if k0 = k' then some v0 else lookupKey rest k'
      rw [if_neg (Ne.symm h), if_neg (fun hh : k0 = k' => h (hh ▸ h0))]
    · rw [if_neg h0]
      show (if k0 = k' then some v0 else lookupKey (setKey rest k v) k') =
        if k0 = k' then some v0 else lookupKey rest k'
      by_cases h1 : k0 = k'
      · rw [if_pos h1, if_pos h1]
      · rw [if_neg h1, if_neg h1, ih]

lemma setKey_ne_nil (a : Attrs) (k : String) (v : AttrVal) :
    setKey a k v ≠ [] := by
  cases a with
  | nil => simp [setKey]
  | cons p rest =>
    obtain ⟨k', v'⟩ := p
    by_cases h : k' = k <;> simp [setKey, h]

/-- C7, counterexample to the claim as stated.  The same fully-valid
record (`qGood`, session live): when the wallet lookup rejects
(`regWalletFail`) the record is not accepted — the exception propagates
out of validation — whereas with a working registry (`regLive`) it is
accepted.  Enrichment lookup failure does block acceptance. -/
theorem c7_counterexample :
    validateAndTransformQuery appsFixture regWalletFail "t0" qGood =
      Except.error () ∧
    validateAndTransformQuery appsFixture regLive "t0" qGood =
      Except.ok (some (mkUbiQuery regLive "t0" uuid1 qGood)) := by
  exact ⟨by decide, by decide⟩

/-- C7 (amended): for a record passing every check up to a live session,
a truthy wallet looked up from the registry is merged into the record's
attributes map as `wallet_address` together with `wallet_opted_in: true`
(creating the map when the submitted record had none, overwriting only
those two keys); when no wallet is associated the record is accepted with
its attributes unchanged (an empty submitted map is dropped from the
output, like an absent one); but when the wallet lookup itself rejects,
the exception propagates and the record is not accepted. -/
theorem c7_wallet_enrichment (apps : List String) (reg : Registry)
    (now : String) :
    (∀ dto : SubmitQueryDto, ∀ sid,
      queryFieldsPresent dto = true →
      apps.contains (dto.application.getD "") = true →
      clientIdRegexTest (dto.client_id.getD "") = true →
      extractSessionId (dto.client_id.getD "") = some sid →
      reg.existsFails sid = false →
      reg.sessionLive sid = true →
      ((∀ w, reg.walletFails sid = false → reg.wallet sid = some w →
        w ≠ "" →
        ∃ r, validateAndTransformQuery apps reg now dto =
            Except.ok (some r) ∧
          ∃ m, r.query_attributes = some m ∧
            lookupKey m "wallet_address" = some (.str w) ∧
            lookupKey m "wallet_opted_in" = some (.boolv true) ∧
            ∀ k, k ≠ "wallet_address" → k ≠ "wallet_opted_in" →
              lookupKey m k =
                lookupKey (dto.query_attributes.getD []) k) ∧
       (reg.walletFails sid = false → reg.wallet sid = none →
        ∃ r, validateAndTransformQuery apps reg now dto =
            Except.ok (some r) ∧
          r.query_attributes = attrsField (dto.query_attributes.getD [])) ∧
       (reg.walletFails sid = true →
        validateAndTransformQuery apps reg now dto = Except.error ()))) ∧
    (∀ dto : SubmitEventDto, ∀ sid,
      eventFieldsPresent dto = true →
      clientIdRegexTest (dto.client_id.getD "") = true →
      extractSessionId (dto.client_id.getD "") = some sid →
      reg.existsFails sid = false →
      reg.sessionLive sid = true →
      ((∀ w, reg.walletFails sid = false → reg.wallet sid = some w →
        w ≠ "" →
        ∃ r, validateAndTransformEvent reg now dto = Except.ok (some r) ∧
          ∃ m, r.event_attributes = some m ∧
            lookupKey m "wallet_address" = some (.str w) ∧
            lookupKey m "wallet_opted_in" = some (.boolv true) ∧
            ∀ k, k ≠ "wallet_address" → k ≠ "wallet_opted_in" →
              lookupKey m k =
                lookupKey (dto.event_attributes.getD []) k) ∧
       (reg.walletFails sid = false → reg.wallet sid = none →
        ∃ r, validateAndTransformEvent reg now dto = Except.ok (some r) ∧
          r.event_attributes = attrsField (dto.event_attributes.getD [])) ∧
       (reg.walletFails sid = true →
        validateAndTransformEvent reg now dto = Except.error ()))) := by
  have merge : ∀ (attrs0 : Attrs) (w : String), w ≠ "" →
      ∃ m, attrsField (enrichAttrs (some w) attrs0) = some m ∧
        lookupKey m "wallet_address" = some (.str w) ∧
        lookupKey m "wallet_opted_in" = some (.boolv true) ∧
        ∀ k, k ≠ "wallet_address" → k ≠ "wallet_opted_in" →
          lookupKey m k = lookupKey attrs0 k := by
    intro attrs0 w hw
    have henr : enrichAttrs (some w) attrs0 =
        setKey (setKey attrs0 "wallet_address" (.str w))
          "wallet_opted_in" (.boolv true) := by
      show (if w = "" then attrs0
        else setKey (setKey attrs0 "wallet_address" (.str w))
          "wallet_opted_in" (.boolv true)) = _
      rw [if_neg hw]
    refine ⟨setKey (setKey attrs0 "wallet_address" (.str w))
      "wallet_opted_in" (.boolv true), ?_, ?_, ?_, ?_⟩
    · rw [henr]
      unfold attrsField
      rw [if_neg ?_]
      intro hnil
      exact setKey_ne_nil _ _ _ (List.isEmpty_iff.mp hnil)
    · rw [lookupKey_setKey_other _ _ _ _ (by decide),
        lookupKey_setKey_same]
    · rw [lookupKey_setKey_same]
    · intro k hk1 hk2
      rw [lookupKey_setKey_other _ _ _ _ hk2,
        lookupKey_setKey_other _ _ _ _ hk1]
  constructor
  · intro dto sid h1 h2 h3 hext hef hlive
    refine ⟨?_, ?_, ?_⟩
    · intro w hwf hw hwne
      have hres : validateAndTransformQuery apps reg now dto =
          Except.ok (some (mkUbiQuery reg now sid dto)) :=
        validateQuery_accept h1 h2 h3 hext hef hlive hwf
      obtain ⟨m, hm, ha, hb, hc⟩ :=
        merge (dto.query_attributes.getD []) w hwne
      refine ⟨mkUbiQuery reg now sid dto, hres, m, ?_, ha, hb, hc⟩
      show attrsField (enrichAttrs (reg.wallet sid)
        (dto.query_attributes.getD [])) = some m
      rw [hw]
      exact hm
    · intro hwf hw
      have hres : validateAndTransformQuery apps reg now dto =
          Except.ok (some (mkUbiQuery reg now sid dto)) :=
        validateQuery_accept h1 h2 h3 hext hef hlive hwf
      refine ⟨mkUbiQuery reg now sid dto, hres, ?_⟩
      show attrsField (enrichAttrs (reg.wallet sid)
        (dto.query_attributes.getD [])) = _
      rw [hw]
      rfl
    · intro hwf
      exact validateQuery_walletFail h1 h2 h3 hext hef hlive hwf
  · intro dto sid h1 h3 hext hef hlive
    refine ⟨?_, ?_, ?_⟩
    · intro w hwf hw hwne
      have hres : validateAndTransformEvent reg now dto =
          Except.ok (some (mkUbiEvent reg now sid dto)) :=
        validateEvent_accept h1 h3 hext hef hlive hwf
      obtain ⟨m, hm, ha, hb, hc⟩ :=
        merge (dto.event_attributes.getD []) w hwne
      refine ⟨mkUbiEvent reg now sid dto, hres, m, ?_, ha, hb, hc⟩
      show attrsField (enrichAttrs (reg.wallet sid)
        (dto.event_attributes.getD [])) = some m
      rw [hw]
      exact hm
    · intro hwf hw
      have hres : validateAndTransformEvent reg now dto =
          Except.ok (some (mkUbiEvent reg now sid dto)) :=
        validateEvent_accept h1 h3 hext hef hlive hwf
      refine ⟨mkUbiEvent reg now sid dto, hres, ?_⟩
      show attrsField (enrichAttrs (reg.wallet sid)
        (dto.event_attributes.getD [])) = _
      rw [hw]
      rfl
    · intro hwf
      exact validateEvent_walletFail h1 h3 hext hef hlive hwf

/-- C7 witness: with a wallet stored for the session, the validated query
record's attributes carry the wallet address and the opt-in flag. -/
theorem c7_wallet_enrichment_witness :
    ∃ r, validateAndTransformQuery appsFixture regWallet "t0" qGood =
        Except.ok (some r) ∧
      ∃ m, r.query_attributes = some m ∧
        lookupKey m "wallet_address" = some (.str "abc123xyz789") ∧
        lookupKey m "wallet_opted_in" = some (.boolv true) := by
  have h := (c7_wallet_enrichment appsFixture regWallet "t0").1 qGood uuid1
    (by decide) (by decide) (by decide) (by decide) rfl (by decide)
  obtain ⟨r, hr, m, hm, ha, hb, -⟩ :=
    h.1 "abc123xyz789" rfl (by decide) (by decide)
  exact ⟨r, hr, m, hm, ha, hb⟩

/-! ## C6: rejected records never reach the store; validations precede
writes -/

/-- C6: every document inside any bulk-write call dispatched by the batch
task is the successful validation result of some submitted record of the
same kind — a record rejected by per-record validation contributes
nothing to any call — and the linearized task trace splits into a prefix
of validation completions followed only by writes, so all validations of
both kinds complete before the first chunked write is dispatched. -/
theorem c6_validate_then_store (apps : List String) (reg : Registry)
    (now : String) (c : Nat) (dto : BatchDto) :
    (∀ call ∈ (submitBatchRun apps reg now c dto).calls,
      (∀ docs, call = StoreCall.queries docs →
        ∀ d ∈ docs, ∃ q ∈ dto.queries.getD [],
          validateAndTransformQuery apps reg now q = Except.ok (some d)) ∧
      (∀ docs, call = StoreCall.events docs →
        ∀ d ∈ docs, ∃ e ∈ dto.events.getD [],
          validateAndTransformEvent reg now e = Except.ok (some d))) ∧
    (∃ pre post, submitBatchTrace apps reg now c dto = pre ++ post ∧
      (∀ ev ∈ pre, (∃ i r, ev = BatchEv.qValidated i r) ∨
        (∃ i r, ev = BatchEv.eValidated i r)) ∧
      (∀ ev ∈ post, ∃ call, ev = BatchEv.write call)) := by
  constructor
  · intro call hcall
    revert hcall
    simp only [submitBatchRun]
    cases hq : (dto.queries.getD []).mapM
        (validateAndTransformQuery apps reg now) with
    | error e => intro hcall; cases hcall
    | ok qres =>
      cases he : (dto.events.getD []).mapM
          (validateAndTransformEvent reg now) with
      | error e => intro hcall; cases hcall
      | ok eres =>
        intro hcall
        rcases List.mem_append.mp hcall with hq' | he'
        · have hmem : call ∈ (chunksOf c (qres.filterMap id)).map
              StoreCall.queries := by
            by_cases hlen : 0 < (qres.filterMap id).length
            · rw [if_pos hlen] at hq'; exact hq'
            · rw [if_neg hlen] at hq'; cases hq'
          obtain ⟨ch, hch, rfl⟩ := List.mem_map.mp hmem
          constructor
          · intro docs hdocs d hd
            injection hdocs with hh
            rw [← hh] at hd
            have hdv : d ∈ qres.filterMap id := mem_of_mem_chunksOf hch hd
            obtain ⟨o, ho, hid⟩ := List.mem_filterMap.mp hdv
            have : o = some d := hid
            rw [this] at ho
            exact mapM_ok_mem hq (some d) ho
          · intro docs hdocs
            cases hdocs
        · have hmem : call ∈ (chunksOf c (eres.filterMap id)).map
              StoreCall.events := by
            by_cases hlen : 0 < (eres.filterMap id).length
            · rw [if_pos hlen] at he'; exact he'
            · rw [if_neg hlen] at he'; cases he'
          obtain ⟨ch, hch, rfl⟩ := List.mem_map.mp hmem
          constructor
          · intro docs hdocs
            cases hdocs
          · intro docs hdocs d hd
            injection hdocs with hh
            rw [← hh] at hd
            have hdv : d ∈ eres.filterMap id := mem_of_mem_chunksOf hch hd
            obtain ⟨o, ho, hid⟩ := List.mem_filterMap.mp hdv
            have : o = some d := hid
            rw [this] at ho
            exact mapM_ok_mem he (some d) ho
  · simp only [submitBatchTrace]
    cases hq : (dto.queries.getD []).mapM
        (validateAndTransformQuery apps reg now) with
    | error e =>
      refine ⟨_, [], (List.append_nil _).symm, ?_, by intro ev hev; cases hev⟩
      intro ev hev
      obtain ⟨p, -, rfl⟩ := List.mem_map.mp hev
      exact Or.inl ⟨p.1, _, rfl⟩
    | ok qres =>
      cases he : (dto.events.getD []).mapM
          (validateAndTransformEvent reg now) with
      | error e =>
        refine ⟨_, [], (List.append_nil _).symm, ?_,
          by intro ev hev; cases hev⟩
        intro ev hev
        rcases List.mem_append.mp hev with h1 | h2
        · obtain ⟨p, -, rfl⟩ := List.mem_map.mp h1
          exact Or.inl ⟨p.1, _, rfl⟩
        · obtain ⟨p, -, rfl⟩ := List.mem_map.mp h2
          exact Or.inr ⟨p.1, _, rfl⟩
      | ok eres =>
        refine ⟨((dto.queries.getD []).enum.map fun p =>
            BatchEv.qValidated p.1
              (validateAndTransformQuery apps reg now p.2)) ++
          ((dto.events.getD []).enum.map fun p =>
            BatchEv.eValidated p.1 (validateAndTransformEvent reg now p.2)),
          (submitBatchRun apps reg now c dto).calls.map BatchEv.write,
          rfl, ?_, ?_⟩
        · intro ev hev
          rcases List.mem_append.mp hev with h1 | h2
          · obtain ⟨p, -, rfl⟩ := List.mem_map.mp h1
            exact Or.inl ⟨p.1, _, rfl⟩
          · obtain ⟨p, -, rfl⟩ := List.mem_map.mp h2
            exact Or.inr ⟨p.1, _, rfl⟩
        · intro ev hev
          obtain ⟨cl, -, rfl⟩ := List.mem_map.mp hev
          exact ⟨cl, rfl⟩

/-- C6 witness: in a concrete one-query batch the single dispatched
bulk call's document is the validation result of the submitted record. -/
theorem c6_validate_then_store_witness :
    ∃ q ∈ (BatchDto.mk (some [qGood]) none).queries.getD [],
      validateAndTransformQuery appsFixture regLive "t0" q =
        Except.ok (some (mkUbiQuery regLive "t0" uuid1 qGood)) := by
  have h := c6_validate_then_store appsFixture regLive "t0" 20
    ⟨some [qGood], none⟩
  exact (h.1 (StoreCall.queries [mkUbiQuery regLive "t0" uuid1 qGood])
    (by decide)).1 _ rfl _ (by decide)

/-! ## C9: batch size bound -/

/-- C9, counterexample to the claim as stated.  The configured per-kind
maximum (`app.analytics.maxBatchSize`, from `MAX_BATCH_SIZE`) defaults to
50, not 100, and is not what the size check enforces: a batch of 51
queries exceeds that configured maximum yet passes the transport-level
check, which is a hardcoded `ArrayMaxSize(100)`. -/
theorem c9_counterexample :
    maxBatchSizeConfig none = some 50 ∧
    (List.replicate 51 qGood).length = 51 ∧
    batchArraysWithinLimit ⟨some (List.replicate 51 qGood), none⟩ =
      true := by
  exact ⟨by decide, by decide, by decide⟩

/-- C9 (amended): the per-kind size bound enforced on a submitted batch
is the hardcoded `ArrayMaxSize(100)` of the batch DTO, applied by the
transport-level validation before the controller runs: a batch whose
queries or events array exceeds 100 is rejected with a validation error
before preflight or any per-record validation, and a batch with both
arrays at or below 100 is never rejected by this size check; the
configured `app.analytics.maxBatchSize` (default 50) is not consulted. -/
theorem c9_size_limit (apps : List String) (reg : Registry) (now : String)
    (c : Nat) (dto : BatchDto) :
    ((100 < (dto.queries.getD []).length ∨
        100 < (dto.events.getD []).length) →
      handleBatch apps reg now c dto = .error .validationError) ∧
    ((dto.queries.getD []).length ≤ 100 ∧
        (dto.events.getD []).length ≤ 100 →
      handleBatch apps reg now c dto ≠ .error .validationError) ∧
    maxBatchSizeConfig none = some 50 := by
  refine ⟨?_, ?_, by decide⟩
  · intro hover
    have hlim : batchArraysWithinLimit dto = false := by
      unfold batchArraysWithinLimit
      rcases hover with h | h
      · have : decide ((dto.queries.getD []).length ≤ 100) = false := by
          simp; omega
        rw [this, Bool.false_and]
      · have : decide ((dto.events.getD []).length ≤ 100) = false := by
          simp; omega
        rw [this, Bool.and_false]
    unfold handleBatch
    rw [hlim]
    rfl
  · intro ⟨hq, he⟩
    have hlim : batchArraysWithinLimit dto = true := by
      unfold batchArraysWithinLimit
      simp [hq, he]
    unfold handleBatch
    rw [hlim]
    cases validateSessionsInBatch reg dto <;> simp

/-- C9 witness: 101 queries are rejected with a validation error; a
one-query batch is not rejected by the size check. -/
theorem c9_size_limit_witness :
    handleBatch appsFixture regDead "t0" 20
      ⟨some (List.replicate 101 qGood), none⟩ =
        Except.error ReqError.validationError ∧
    handleBatch appsFixture regLive "t0" 20 ⟨some [qGood], none⟩ ≠
      Except.error ReqError.validationError := by
  constructor
  · exact (c9_size_limit appsFixture regDead "t0" 20
      ⟨some (List.replicate 101 qGood), none⟩).1 (Or.inl (by decide))
  · exact (c9_size_limit appsFixture regLive "t0" 20
      ⟨some [qGood], none⟩).2.1 ⟨by decide, by decide⟩

/-! ## C10: wallet storage versus wallet tag at session initialization -/

/-- C10: with an allow-listed client name and a wallet address whose trim
is nonempty, `initializeSession` stores the full trimmed address under
the session's wallet key, but appends a fourth `@`-segment — exactly the
first 8 characters of the trimmed address — only when the trimmed address
has at least 8 characters; for trimmed lengths 1 through 7 the returned
client id has exactly the 3 segments name, version, sessionId while the
session nevertheless has a stored wallet for enrichment to attach.  The
`@`-freeness hypotheses hold for every identifier the service builds
(client names and versions are validated against `@`-free patterns and
the session id is a generated UUID). -/
theorem c10_wallet_tag_threshold (allowedClientNames : List String)
    (clientName clientVersion sessionId w : String)
    (hname : clientName ∈ allowedClientNames)
    (hn : '@' ∉ clientName.data) (hv : '@' ∉ clientVersion.data)
    (hs : '@' ∉ sessionId.data) (hw : '@' ∉ (jsTrim w).data)
    (h1 : 0 < (jsTrim w).length) :
    ∃ res, initializeSession allowedClientNames clientName clientVersion
        (some w) sessionId = Except.ok res ∧
      res.storedWallet = some (jsTrim w) ∧
      res.response.wallet_address = some (jsTrim w) ∧
      (8 ≤ (jsTrim w).length →
        res.response.client_id.data.splitOn '@' =
          [clientName.data, clientVersion.data, sessionId.data,
            (jsTrim w).data.take 8]) ∧
      ((jsTrim w).length ≤ 7 →
        res.response.client_id.data.splitOn '@' =
          [clientName.data, clientVersion.data, sessionId.data]) := by
  have hc : allowedClientNames.contains clientName = true := by
    simpa using hname
  have hat : ("@" : String).data = ['@'] := rfl
  have hbase : (clientName ++ "@" ++ clientVersion ++ "@" ++
      sessionId).data =
      clientName.data ++ '@' :: (clientVersion.data ++ '@' ::
        sessionId.data) := by
    simp only [String.data_append, hat]
    simp [List.append_assoc]
  by_cases h8 : 8 ≤ (jsTrim w).length
  · have hres : initializeSession allowedClientNames clientName
        clientVersion (some w) sessionId = Except.ok
        { response :=
            { session_id := sessionId
              client_id := (clientName ++ "@" ++ clientVersion ++ "@" ++
                sessionId) ++ "@" ++ jsSubstring0 (jsTrim w) 8
              wallet_address := some (jsTrim w) }
          storedSession := true
          storedWallet := some (jsTrim w) } := by
      simp only [initializeSession, hc, Bool.not_true, Bool.false_eq_true,
        if_false, if_pos h1, if_pos h8]
    refine ⟨_, hres, rfl, rfl, fun _ => ?_,
      fun h7 => absurd h8 (by omega)⟩
    show ((clientName ++ "@" ++ clientVersion ++ "@" ++ sessionId) ++
      "@" ++ jsSubstring0 (jsTrim w) 8).data.splitOn '@' = _
    have hdata : ((clientName ++ "@" ++ clientVersion ++ "@" ++
        sessionId) ++ "@" ++ jsSubstring0 (jsTrim w) 8).data =
        clientName.data ++ '@' :: (clientVersion.data ++ '@' ::
          (sessionId.data ++ '@' :: (jsTrim w).data.take 8)) := by
      simp only [String.data_append, hat, hbase, jsSubstring0]
      simp [List.append_assoc]
    rw [hdata]
    exact splitOn_four_of hn hv hs
      (fun hmem => hw (List.mem_of_mem_take hmem))
  · have hres : initializeSession allowedClientNames clientName
        clientVersion (some w) sessionId = Except.ok
        { response :=
            { session_id := sessionId
              client_id := clientName ++ "@" ++ clientVersion ++ "@" ++
                sessionId
              wallet_address := some (jsTrim w) }
          storedSession := true
          storedWallet := some (jsTrim w) } := by
      simp only [initializeSession, hc, Bool.not_true, Bool.false_eq_true,
        if_false, if_pos h1, if_neg h8]
    refine ⟨_, hres, rfl, rfl, fun h8' => absurd h8' h8, fun _ => ?_⟩
    show (clientName ++ "@" ++ clientVersion ++ "@" ++
      sessionId).data.splitOn '@' = _
    rw [hbase]
    exact splitOn_three_of hn hv hs

/-- C10 witness: a 5-character wallet is stored in full while the client
id keeps 3 segments. -/
theorem c10_wallet_tag_threshold_witness :
    ∃ res, initializeSession ["web", "mobile-ios", "mobile-android"] "web"
        "1.0.0" (some " abc12 ") uuid1 = Except.ok res ∧
      res.storedWallet = some "abc12" ∧
      res.response.client_id.data.splitOn '@' =
        ["web".data, "1.0.0".data, uuid1.data] := by
  obtain ⟨res, hres, hstored, -, -, h3⟩ := c10_wallet_tag_threshold
    ["web", "mobile-ios", "mobile-android"] "web" "1.0.0" uuid1 " abc12 "
    (by decide) (by decide) (by decide) (by decide) (by decide) (by decide)
  exact ⟨res, hres, by rw [hstored]; decide, h3 (by decide)⟩

end StatsGoblin
